import Mathlib

/-!
# Pebble Term Watch: the typing-animation state machine

A shallow embedding of `src/pebble_term_watch.c`: the minute-tick handler
`tick_handler`, the timer callback `set_time_anim`, the clock writer
`set_time` and the settings callback `sync_tuple_changed_callback`,
together with the part of the Pebble SDK they drive.

Conventions.
* The file-level `static` variables of the C program are the fields of `Watch`.
* C `int` variables (`state`, `initTime`, `secondsSync`) are `Int`; signed
  overflow is undefined behaviour in C and is not modelled (`state` would need
  2^31 timer firings without a restart to reach it).
* `uint8_t` settings are `Nat` reduced modulo 256 when stored, the `int16_t`
  timezone offset is an `Int` wrapped into the 16-bit signed range when stored.
* The SDK scheduler is the list `Watch.scheduler` of armed, not yet fired
  timers; `app_timer_register` returns a fresh handle, `app_timer_cancel`
  removes the timer with the given handle (no effect when it is not armed).
* The window root layer is the list `Watch.children` of its child layers in
  drawing order; `layer_add_child` detaches the layer from its parent if it has
  one and appends it, `layer_remove_from_parent` detaches it.
* The results of the C library and SDK clock calls (`strftime`, `time`,
  `clock_is_24h_style`) are inputs, collected in `Clock`.
-/

namespace PebbleTermWatch

/-! ## Constants -/

def TYPE_DELTA : Nat := 200

def PROMPT_DELTA : Nat := 1000

def INITTIME_PROMPT_LIMIT : Int := 10

/-! ## Data model -/

/-- Settings record `persist` (`uint8_t`, `uint8_t`, `int16_t`). -/
structure persist where
  BluetoothVibe : Nat
  TypingAnimation : Nat
  TimezoneOffset : Int
deriving DecidableEq, Repr

/-- Keys of the settings dictionary (the anonymous `enum`). -/
def BLUETOOTH_VIBE_KEY : Nat := 0

def TYPING_ANIMATION_KEY : Nat := 1

def TIMEZONE_OFFSET_KEY : Nat := 2

/-- The two views of a tuple value that the settings callback reads. -/
structure Tuple where
  uint8 : Nat
  int16 : Int
deriving DecidableEq, Repr

/-- The seven text layers of the window. -/
inductive TextLayer where
  | time_label
  | time_layer
  | date_label
  | date_layer
  | hour_label
  | hour_layer
  | prompt_label
deriving DecidableEq, Repr

/-- Layers that the animation attaches to and detaches from the window root:
the text layers and the inverter layer `prompt_layer`. -/
inductive Layer where
  | text (l : TextLayer)
  | prompt_layer
deriving DecidableEq, Repr

/-- An armed timer of the SDK scheduler; its callback is always `set_time_anim`. -/
structure AppTimer where
  handle : Nat
  timeout_ms : Nat
deriving DecidableEq, Repr

/-- What the clock calls return at one invocation: `clock_is_24h_style()`, the
three `strftime` results for the `tm` at hand, and `time(NULL)`. -/
structure Clock where
  is24h : Bool
  fmtHMS24 : String
  fmtHMS12 : String
  fmtYMD : String
  now : Nat
deriving DecidableEq, Repr

/-- The global state of the program that the animation reads and writes. -/
structure Watch where
  settings : persist
  timer : Option Nat
  scheduler : List AppTimer
  nextHandle : Nat
  firstRun : Bool
  initTime : Int
  secondsSync : Int
  state : Int
  prompt_visible : Bool
  time_label : String
  time_layer : String
  date_label : String
  date_layer : String
  hour_label : String
  hour_layer : String
  prompt_label : String
  children : List Layer
deriving DecidableEq, Repr

/-! ## The SDK calls used by the animation -/

def text_layer_get_layer (l : TextLayer) : Layer := Layer.text l

/-- Text currently shown by a text layer. -/
def text_layer_get_text (l : TextLayer) (w : Watch) : String :=
  match l with
  | .time_label => w.time_label
  | .time_layer => w.time_layer
  | .date_label => w.date_label
  | .date_layer => w.date_layer
  | .hour_label => w.hour_label
  | .hour_layer => w.hour_layer
  | .prompt_label => w.prompt_label

def text_layer_set_text (l : TextLayer) (txt : String) (w : Watch) : Watch :=
  match l with
  | .time_label => { w with time_label := txt }
  | .time_layer => { w with time_layer := txt }
  | .date_label => { w with date_label := txt }
  | .date_layer => { w with date_layer := txt }
  | .hour_label => { w with hour_label := txt }
  | .hour_layer => { w with hour_layer := txt }
  | .prompt_label => { w with prompt_label := txt }

def layer_remove_from_parent (l : Layer) (w : Watch) : Watch :=
  { w with children := w.children.filter (fun c => decide (c ≠ l)) }

def layer_add_child (l : Layer) (w : Watch) : Watch :=
  { w with children := w.children.filter (fun c => decide (c ≠ l)) ++ [l] }

/-- Arms a one-shot timer and returns its handle with the new state. -/
def app_timer_register (ms : Nat) (w : Watch) : Nat × Watch :=
  (w.nextHandle,
   { w with scheduler := w.scheduler ++ [{ handle := w.nextHandle, timeout_ms := ms }],
            nextHandle := w.nextHandle + 1 })

def app_timer_cancel (h : Nat) (w : Watch) : Watch :=
  { w with scheduler := w.scheduler.filter (fun t => decide (t.handle ≠ h)) }

/-- The statement `timer = app_timer_register(ms, set_time_anim, 0);`. -/
def arm (ms : Nat) (w : Watch) : Watch :=
  let r := app_timer_register ms w
  { r.2 with timer := some r.1 }

/-! ## The program -/

/-- Settings callback `sync_tuple_changed_callback`. -/
def sync_tuple_changed_callback (key : Nat) (new_tuple : Tuple) (w : Watch) : Watch :=
  if key = BLUETOOTH_VIBE_KEY then
    { w with settings := { w.settings with BluetoothVibe := new_tuple.uint8 % 256 } }
  else if key = TYPING_ANIMATION_KEY then
    { w with settings := { w.settings with TypingAnimation := new_tuple.uint8 % 256 } }
  else if key = TIMEZONE_OFFSET_KEY then
    { w with settings :=
        { w.settings with TimezoneOffset := (new_tuple.int16 + 32768) % 65536 - 32768 } }
  else w

/-- The decimal text of `(unsigned)time(NULL) + settings.TimezoneOffset`. -/
def unixtime (c : Clock) (w : Watch) : String :=
  Nat.repr (((c.now : Int) + w.settings.TimezoneOffset) % 4294967296).toNat

/-- Clock writer `set_time`. -/
def set_time (c : Clock) (w : Watch) : Watch :=
  let w := text_layer_set_text .hour_layer (if c.is24h then c.fmtHMS24 else c.fmtHMS12) w
  let w := text_layer_set_text .date_layer c.fmtYMD w
  text_layer_set_text .time_layer (unixtime c w) w

/-- The `default:` case of the `switch` of `set_time_anim` (`Rest of the
minute`): the cursor blinks and the first run is counted down. -/
def set_time_anim_default (w : Watch) : Watch :=
  let w :=
    if w.prompt_visible then
      layer_remove_from_parent Layer.prompt_layer { w with prompt_visible := false }
    else
      layer_add_child Layer.prompt_layer { w with prompt_visible := true }
  let w :=
    if w.firstRun then
      let w := { w with initTime := w.initTime + 1 }
      if w.initTime > INITTIME_PROMPT_LIMIT then
        { w with firstRun := false, initTime := 0 }
      else w
    else w
  arm PROMPT_DELTA w

/-- The `switch (state)` of `set_time_anim`; the Boolean is the local `timed`. -/
def set_time_anim_switch (c : Clock) (w : Watch) : Watch × Bool :=
  match w.state with
  | 0 => (arm TYPE_DELTA (set_time c w), true)
  | 1 => (arm TYPE_DELTA (text_layer_set_text .date_label "pebble>d" w), false)
  | 2 => (arm TYPE_DELTA (text_layer_set_text .date_label "pebble>da" w), false)
  | 3 => (arm TYPE_DELTA (text_layer_set_text .date_label "pebble>dat" w), false)
  | 4 => (arm TYPE_DELTA (text_layer_set_text .date_label "pebble>date" w), false)
  | 5 => (arm TYPE_DELTA (text_layer_set_text .date_label "pebble>date +" w), false)
  | 6 => (arm TYPE_DELTA (text_layer_set_text .date_label "pebble>date +%" w), false)
  | 7 => (arm TYPE_DELTA (text_layer_set_text .date_label "pebble>date +%F" w), false)
  | 8 =>
    let w := layer_add_child (text_layer_get_layer .date_layer) w
    let w := text_layer_set_text .hour_label "pebble>" w
    (arm (10 * TYPE_DELTA) w, false)
  | 9 => (arm TYPE_DELTA (text_layer_set_text .hour_label "pebble>d" w), false)
  | 10 => (arm TYPE_DELTA (text_layer_set_text .hour_label "pebble>da" w), false)
  | 11 => (arm TYPE_DELTA (text_layer_set_text .hour_label "pebble>dat" w), false)
  | 12 => (arm TYPE_DELTA (text_layer_set_text .hour_label "pebble>date" w), false)
  | 13 => (arm TYPE_DELTA (text_layer_set_text .hour_label "pebble>date +" w), false)
  | 14 => (arm TYPE_DELTA (text_layer_set_text .hour_label "pebble>date +%" w), false)
  | 15 => (arm TYPE_DELTA (text_layer_set_text .hour_label "pebble>date +%T" w), false)
  | 16 =>
    let w := layer_add_child (text_layer_get_layer .hour_layer) w
    let w := text_layer_set_text .time_label "pebble>" w
    if w.firstRun && decide (w.secondsSync = 0) && decide (w.settings.TypingAnimation = 0) then
      (arm TYPE_DELTA { w with secondsSync := 10 }, false)
    else
      (arm (10 * TYPE_DELTA) w, false)
  | 17 => (arm TYPE_DELTA (text_layer_set_text .time_label "pebble>d" w), false)
  | 18 => (arm TYPE_DELTA (text_layer_set_text .time_label "pebble>da" w), false)
  | 19 => (arm TYPE_DELTA (text_layer_set_text .time_label "pebble>date" w), false)
  | 20 => (arm TYPE_DELTA (text_layer_set_text .time_label "pebble>date +" w), false)
  | 21 => (arm TYPE_DELTA (text_layer_set_text .time_label "pebble>date +%" w), false)
  | 22 => (arm TYPE_DELTA (text_layer_set_text .time_label "pebble>date +%s" w), false)
  | 23 =>
    let w := layer_add_child (text_layer_get_layer .time_layer) w
    let w := text_layer_set_text .prompt_label "pebble>" w
    let w := { w with prompt_visible := true }
    (arm PROMPT_DELTA w, false)
  | _ => (set_time_anim_default w, false)

/-- The forced redraw of the `disabled animation` block of `set_time_anim`
(everything before its `secondsSync` test). -/
def disabled_redraw (c : Clock) (timed : Bool) (w : Watch) : Watch :=
  let w := if !timed then set_time c w else w
  let w := layer_remove_from_parent (text_layer_get_layer .date_layer) w
  let w := layer_add_child (text_layer_get_layer .date_layer) w
  if w.state > 16 then
    let w := layer_remove_from_parent (text_layer_get_layer .hour_layer) w
    let w := layer_add_child (text_layer_get_layer .hour_layer) w
    if w.state > 23 then
      let w := layer_remove_from_parent (text_layer_get_layer .time_layer) w
      layer_add_child (text_layer_get_layer .time_layer) w
    else w
  else w

/-- Timer callback `set_time_anim`: one step of the animation. -/
def set_time_anim (c : Clock) (w : Watch) : Watch :=
  let r := set_time_anim_switch c w
  let w := r.1
  if decide (w.settings.TypingAnimation = 0) && decide (w.state > 16) then
    let w := disabled_redraw c r.2 w
    if w.secondsSync > 0 then
      { w with secondsSync := w.secondsSync - 1 }
    else
      { w with state := w.state + 1 }
  else
    { w with state := w.state + 1 }

/-- Minute-tick handler `tick_handler`; the `tm` argument and the clock calls of
`set_time` are the `Clock`. -/
def tick_handler (c : Clock) (w : Watch) : Watch :=
  let cancelled : Watch :=
    match w.timer with
    | some h => app_timer_cancel h w
    | none => w
  if w.timer.isSome && (w.firstRun && decide (w.state < 26)) then
    arm PROMPT_DELTA cancelled
  else
    let w := arm PROMPT_DELTA cancelled
    let w :=
      if !w.firstRun && decide (w.settings.TypingAnimation = 0) then
        if w.state > 25 then
          let w := { w with state := 25 }
          let w := layer_remove_from_parent (text_layer_get_layer .date_layer) w
          let w := layer_add_child (text_layer_get_layer .date_layer) w
          let w := layer_remove_from_parent (text_layer_get_layer .hour_layer) w
          let w := layer_add_child (text_layer_get_layer .hour_layer) w
          let w := layer_remove_from_parent (text_layer_get_layer .time_layer) w
          let w := layer_add_child (text_layer_get_layer .time_layer) w
          { w with prompt_visible := false }
        else w
      else
        let w := { w with state := 0 }
        let w := text_layer_set_text .date_label "pebble>" w
        let w := layer_remove_from_parent (text_layer_get_layer .date_layer) w
        let w := text_layer_set_text .hour_label "" w
        let w := layer_remove_from_parent (text_layer_get_layer .hour_layer) w
        let w := text_layer_set_text .time_label "" w
        let w := layer_remove_from_parent (text_layer_get_layer .time_layer) w
        let w := text_layer_set_text .prompt_label "" w
        let w := layer_remove_from_parent Layer.prompt_layer w
        { w with prompt_visible := false }
    set_time c w

/-- Initial value of the global `settings`. -/
def default_settings : persist :=
  { BluetoothVibe := 1, TypingAnimation := 1, TimezoneOffset := 0 }

/-- State when the event loop starts: the static initialisers, the settings as
left by `persist_read_data` in `init` (the stored record when there is one), and
the window as built by `window_load` (seven text layers with empty text attached
in creation order, the inverter created but not attached). -/
def boot (stored : Option persist) : Watch :=
  { settings := stored.getD default_settings
    timer := none
    scheduler := []
    nextHandle := 0
    firstRun := true
    initTime := 0
    secondsSync := 0
    state := 0
    prompt_visible := false
    time_label := ""
    time_layer := ""
    date_label := ""
    date_layer := ""
    hour_label := ""
    hour_layer := ""
    prompt_label := ""
    children := [Layer.text .date_label, Layer.text .date_layer, Layer.text .hour_label,
      Layer.text .hour_layer, Layer.text .time_label, Layer.text .time_layer,
      Layer.text .prompt_label] }

/-! ## Events of the event loop -/

/-- What the event loop can deliver to the animation. -/
inductive Event where
  | tick (c : Clock)
  | fire (h : Nat) (c : Clock)
  | sync (key : Nat) (new_tuple : Tuple)
deriving DecidableEq, Repr

/-- The scheduler fires the armed timer with handle `h`: the timer leaves the
scheduler and its callback `set_time_anim` runs. Not possible when no timer
with this handle is armed. -/
def fire (h : Nat) (c : Clock) (w : Watch) : Option Watch :=
  if w.scheduler.any (fun t => decide (t.handle = h)) then
    some (set_time_anim c (app_timer_cancel h w))
  else none

/-- One event. -/
def step (e : Event) (w : Watch) : Option Watch :=
  match e with
  | .tick c => some (tick_handler c w)
  | .fire h c => fire h c w
  | .sync key v => some (sync_tuple_changed_callback key v w)

/-- A sequence of events, run to completion one after the other. -/
def exec : List Event → Watch → Option Watch
  | [], w => some w
  | e :: es, w => (step e w).bind (exec es)

/-- Recognises a minute tick. -/
def Event.isTick : Event → Bool
  | .tick _ => true
  | _ => false

/-- Exactly one timer is armed and `timer` records its handle. -/
def OneTimer (w : Watch) : Prop :=
  ∃ t : AppTimer, w.scheduler = [t] ∧ w.timer = some t.handle

/-- No timer is armed and `timer` is `NULL`. -/
def NoTimer (w : Watch) : Prop :=
  w.scheduler = [] ∧ w.timer = none

/-- The delay of the timer that was armed last. -/
def armed_delay (w : Watch) : Option Nat :=
  w.scheduler.getLast?.map AppTimer.timeout_ms

/-- The timer recorded in `timer` fires. -/
def fire_recorded (c : Clock) (w : Watch) : Option Watch :=
  match w.timer with
  | some h => fire h c w
  | none => none

/-- Consecutive firings of the recorded timer, the `i`-th at the clock reading
`cs i`, logged as the progress at which each step ran and the delay it armed. -/
def advance_log (cs : Nat → Clock) : Nat → Watch → List (Int × Option Nat)
  | 0, _ => []
  | n + 1, w =>
    match fire_recorded (cs 0) w with
    | some w' => (w.state, armed_delay w') :: advance_log (fun i => cs (i + 1)) n w'
    | none => []

/-- The delay that `set_time_anim` passes to `app_timer_register`, by case of its
`switch`: `10 * TYPE_DELTA` in case 8 and, unless the fast-forward starts, in case
16; `PROMPT_DELTA` in case 23 and in the `default` case; `TYPE_DELTA` elsewhere. -/
def step_delay (w : Watch) : Nat :=
  if w.state = 8 then 10 * TYPE_DELTA
  else if w.state = 16 then
    (if w.firstRun = true ∧ w.secondsSync = 0 ∧ w.settings.TypingAnimation = 0 then TYPE_DELTA
     else 10 * TYPE_DELTA)
  else if 0 ≤ w.state ∧ w.state ≤ 22 then TYPE_DELTA
  else PROMPT_DELTA

/-- A clock reading used in the examples. -/
def clock0 : Clock :=
  { is24h := true, fmtHMS24 := "12:00:00", fmtHMS12 := "12:00:00", fmtYMD := "2014-01-01",
    now := 1388577600 }

/-- Stored settings with the typing animation switched off. -/
def animation_off : persist :=
  { BluetoothVibe := 1, TypingAnimation := 0, TimezoneOffset := 0 }

/-- Events of a restart followed by `n` firings of the timers with handles
`0, 1, ..., n - 1`, all at the clock reading `clock0`. -/
def tick_then_fires (n : Nat) : List Event :=
  Event.tick clock0 :: (List.range n).map (fun h => Event.fire h clock0)

/-- First run with the animation off, reached by the first minute tick and 17
timer firings: progress 17 with the fast-forward count just set to 10. -/
def typing_held : Watch :=
  { settings := animation_off
    timer := some 17
    scheduler := [{ handle := 17, timeout_ms := 200 }]
    nextHandle := 18
    firstRun := true
    initTime := 0
    secondsSync := 10
    state := 17
    prompt_visible := false
    time_label := "pebble>"
    time_layer := "1388577600"
    date_label := "pebble>date +%F"
    date_layer := "2014-01-01"
    hour_label := "pebble>date +%T"
    hour_layer := "12:00:00"
    prompt_label := ""
    children := [Layer.text .date_label, Layer.text .hour_label, Layer.text .time_label,
      Layer.text .prompt_label, Layer.text .date_layer, Layer.text .hour_layer] }

/-- Steady state with the animation off, reached by the first minute tick and 45
timer firings: the first run is over and progress is 35. -/
def idle_off : Watch :=
  { settings := animation_off
    timer := some 45
    scheduler := [{ handle := 45, timeout_ms := 1000 }]
    nextHandle := 46
    firstRun := false
    initTime := 0
    secondsSync := 0
    state := 35
    prompt_visible := false
    time_label := "pebble>date +%s"
    time_layer := "1388577600"
    date_label := "pebble>date +%F"
    date_layer := "2014-01-01"
    hour_label := "pebble>date +%T"
    hour_layer := "12:00:00"
    prompt_label := "pebble>"
    children := [Layer.text .date_label, Layer.text .hour_label, Layer.text .time_label,
      Layer.text .prompt_label, Layer.text .date_layer, Layer.text .hour_layer,
      Layer.text .time_layer] }

/-- The label that the typing step at progress `p` writes: the date label for
the cases 1 to 7, the hour label for 9 to 15, the time label for 17 to 22. -/
def typed_label (p : Int) : TextLayer :=
  if p ≤ 7 then .date_label else if p ≤ 15 then .hour_label else .time_label

/-- The state reached from boot by a sequence of events (the boot state itself
when the sequence names a timer that is not armed). -/
def reached (stored : Option persist) (evs : List Event) : Watch :=
  (exec evs (boot stored)).getD (boot stored)

/-- Recognises a settings update. -/
def Event.isSync : Event → Bool
  | .sync _ _ => true
  | _ => false

/-- Invariant of every run: progress is not negative and the cursor flag is clear
below progress 23. -/
def CursorInv (w : Watch) : Prop :=
  0 ≤ w.state ∧ (w.state < 23 → w.prompt_visible = false)

/-- Invariant of the runs without settings updates: progress is not negative, the
cursor flag is clear below progress 24, and the fast-forward count is positive
only at progress 17 of a first run with the animation disabled and a timer
recorded. -/
def CursorInvNoSync (w : Watch) : Prop :=
  0 ≤ w.state ∧ (w.state < 24 → w.prompt_visible = false) ∧ 0 ≤ w.secondsSync
    ∧ (0 < w.secondsSync →
        w.state = 17 ∧ w.firstRun = true ∧ w.timer.isSome = true
          ∧ w.settings.TypingAnimation = 0)

/-- A run that holds progress at 23 with the cursor flag set: boot with the
animation off, the first minute tick and 17 firings (progress 17, fast-forward
count 10); the animation is switched on, 6 firings type the time label (progress
23); the animation is switched off again and the timer fires once more. -/
def held_at_cursor_events : List Event :=
  tick_then_fires 17
    ++ [Event.sync TYPING_ANIMATION_KEY { uint8 := 1, int16 := 1 }]
    ++ (List.range 6).map (fun i => Event.fire (17 + i) clock0)
    ++ [Event.sync TYPING_ANIMATION_KEY { uint8 := 0, int16 := 0 }, Event.fire 23 clock0]

/-- First run with the default settings about to settle the epoch line, reached
by the first minute tick and 23 timer firings: progress 23, the inverter layer
`prompt_layer` not attached (the restart in `tick_handler` detached it). -/
def before_cursor : Watch :=
  { settings := default_settings
    timer := some 23
    scheduler := [{ handle := 23, timeout_ms := 200 }]
    nextHandle := 24
    firstRun := true
    initTime := 0
    secondsSync := 0
    state := 23
    prompt_visible := false
    time_label := "pebble>date +%s"
    time_layer := "1388577600"
    date_label := "pebble>date +%F"
    date_layer := "2014-01-01"
    hour_label := "pebble>date +%T"
    hour_layer := "12:00:00"
    prompt_label := ""
    children := [Layer.text .date_label, Layer.text .hour_label, Layer.text .time_label,
      Layer.text .prompt_label, Layer.text .date_layer, Layer.text .hour_layer] }

/-- A first run that comes back to progress 16 with part of the fast-forward
count left: boot with the animation off, the first minute tick and 18 firings
(progress 17, count 9); the animation is switched on, 9 firings take progress to
26; a minute tick restarts the run, 16 firings reach progress 16; the animation
is switched off again. -/
def skip_left_events : List Event :=
  tick_then_fires 18
    ++ [Event.sync TYPING_ANIMATION_KEY { uint8 := 1, int16 := 1 }]
    ++ (List.range 9).map (fun i => Event.fire (18 + i) clock0)
    ++ [Event.tick clock0]
    ++ (List.range 16).map (fun i => Event.fire (28 + i) clock0)
    ++ [Event.sync TYPING_ANIMATION_KEY { uint8 := 0, int16 := 0 }]

/-- The state at the end of `skip_left_events`: first run, animation off,
progress 16, fast-forward count 9. -/
def settle_with_skip_left : Watch :=
  { settings := animation_off
    timer := some 44
    scheduler := [{ handle := 44, timeout_ms := 200 }]
    nextHandle := 45
    firstRun := true
    initTime := 2
    secondsSync := 9
    state := 16
    prompt_visible := false
    time_label := ""
    time_layer := "1388577600"
    date_label := "pebble>date +%F"
    date_layer := "2014-01-01"
    hour_label := "pebble>date +%T"
    hour_layer := "12:00:00"
    prompt_label := ""
    children := [Layer.text .date_label, Layer.text .hour_label, Layer.text .time_label,
      Layer.text .prompt_label, Layer.text .date_layer] }

/-- The number of idle steps in a run: the timer firings that run
`set_time_anim` at progress 24 or more. -/
def idle_advances : List Event → Watch → Nat
  | [], _ => 0
  | e :: es, w =>
    match step e w with
    | some w' =>
      (match e with
        | .fire _ _ => if 24 ≤ w.state then 1 else 0
        | _ => 0) + idle_advances es w'
    | none => 0

/-- Consecutive firings of the recorded timer, the `i`-th at the clock reading
`cs i`, logged as the progress before the step, the progress and the fast-forward
count `secondsSync` after it, and the delay it armed. -/
def advance_trace (cs : Nat → Clock) : Nat → Watch → List (Int × Int × Int × Option Nat)
  | 0, _ => []
  | n + 1, w =>
    match fire_recorded (cs 0) w with
    | some w' =>
      (w.state, w'.state, w'.secondsSync, armed_delay w')
        :: advance_trace (fun i => cs (i + 1)) n w'
    | none => []

/-- Recognises a timer firing. -/
def Event.isFire : Event → Bool
  | .fire _ _ => true
  | _ => false

/-- The characters by which the literal written in case `p` of the `switch`
extends the literal of the case before it (for the cases 1, 9 and 17: the bare
prompt `pebble>`): one character, except the two characters ` +` in the cases 5,
13 and 20 and `te` in case 19. -/
def appended_text (p : Int) : String :=
  if p = 1 ∨ p = 9 ∨ p = 17 then "d"
  else if p = 2 ∨ p = 10 ∨ p = 18 then "a"
  else if p = 3 ∨ p = 11 then "t"
  else if p = 4 ∨ p = 12 then "e"
  else if p = 19 then "te"
  else if p = 5 ∨ p = 13 ∨ p = 20 then " +"
  else if p = 6 ∨ p = 14 ∨ p = 21 then "%"
  else if p = 7 then "F"
  else if p = 15 then "T"
  else "s"

/-- Invariant of every run: progress is not negative, and at progress 0 either
the date label holds the bare prompt (written by the restart in `tick_handler`)
or the program has just booted (first run, no timer armed or recorded). -/
def StartInv (w : Watch) : Prop :=
  0 ≤ w.state
    ∧ (w.state = 0 →
        w.date_label = "pebble>"
          ∨ (w.scheduler = [] ∧ w.timer = none ∧ w.firstRun = true))

/-- Every settings update of the run either arrives while the fast-forward count
`secondsSync` is not positive or leaves the typing animation disabled. -/
def syncs_benign : List Event → Watch → Bool
  | [], _ => true
  | e :: es, w =>
    match step e w with
    | some w' =>
      (match e with
        | .sync _ _ =>
          decide (w.secondsSync ≤ 0) || decide (w'.settings.TypingAnimation = 0)
        | _ => true) && syncs_benign es w'
    | none => true

/-- The literal that case `p` of the `switch` writes to the label being typed
(cases 1 to 7, 9 to 15 and 17 to 22); for the other cases the bare prompt, which
is what that label holds when its typing starts (written by the restart in
`tick_handler` for the date label, by case 8 for the hour label and by case 16
for the time label). -/
def typed_text : Int → String
  | 1 => "pebble>d"
  | 2 => "pebble>da"
  | 3 => "pebble>dat"
  | 4 => "pebble>date"
  | 5 => "pebble>date +"
  | 6 => "pebble>date +%"
  | 7 => "pebble>date +%F"
  | 9 => "pebble>d"
  | 10 => "pebble>da"
  | 11 => "pebble>dat"
  | 12 => "pebble>date"
  | 13 => "pebble>date +"
  | 14 => "pebble>date +%"
  | 15 => "pebble>date +%T"
  | 17 => "pebble>d"
  | 18 => "pebble>da"
  | 19 => "pebble>date"
  | 20 => "pebble>date +"
  | 21 => "pebble>date +%"
  | 22 => "pebble>date +%s"
  | _ => "pebble>"

/-- A run with two settings updates that keep the cursor invariant: the animation
is switched off before the first minute tick, then the tick and 17 firings
(progress 17, fast-forward count 10), then a timezone update. -/
def benign_sync_events : List Event :=
  Event.sync TYPING_ANIMATION_KEY { uint8 := 0, int16 := 0 }
    :: tick_then_fires 17
    ++ [Event.sync TIMEZONE_OFFSET_KEY { uint8 := 60, int16 := 60 }]

/-- First run with the animation off, reached by the first minute tick and 18
timer firings: progress is held at 17, the step at 17 has run once (the time
label holds `pebble>d`) and the fast-forward count is 9. -/
def held_once : Watch :=
  { settings := animation_off
    timer := some 18
    scheduler := [{ handle := 18, timeout_ms := 200 }]
    nextHandle := 19
    firstRun := true
    initTime := 0
    secondsSync := 9
    state := 17
    prompt_visible := false
    time_label := "pebble>d"
    time_layer := "1388577600"
    date_label := "pebble>date +%F"
    date_layer := "2014-01-01"
    hour_label := "pebble>date +%T"
    hour_layer := "12:00:00"
    prompt_label := ""
    children := [Layer.text .date_label, Layer.text .hour_label, Layer.text .time_label,
      Layer.text .prompt_label, Layer.text .date_layer, Layer.text .hour_layer] }

/-! # Theorems -/

/-! ## Timers armed by the two handlers -/

theorem switch_arms (c : Clock) (w : Watch) :
    ∃ d, (set_time_anim_switch c w).1.scheduler = w.scheduler ++ [⟨w.nextHandle, d⟩]
      ∧ (set_time_anim_switch c w).1.timer = some w.nextHandle
      ∧ (set_time_anim_switch c w).1.nextHandle = w.nextHandle + 1 := by
  unfold set_time_anim_switch set_time_anim_default
  split
  all_goals (try dsimp only)
  all_goals (try split_ifs)
  all_goals exact ⟨_, rfl, rfl, rfl⟩

theorem disabled_redraw_timers (c : Clock) (b : Bool) (w : Watch) :
    (disabled_redraw c b w).scheduler = w.scheduler
      ∧ (disabled_redraw c b w).timer = w.timer
      ∧ (disabled_redraw c b w).nextHandle = w.nextHandle := by
  unfold disabled_redraw
  simp only [set_time, text_layer_set_text, layer_add_child, layer_remove_from_parent]
  split_ifs <;> exact ⟨rfl, rfl, rfl⟩

theorem set_time_anim_arms (c : Clock) (w : Watch) :
    ∃ d, (set_time_anim c w).scheduler = w.scheduler ++ [⟨w.nextHandle, d⟩]
      ∧ (set_time_anim c w).timer = some w.nextHandle
      ∧ (set_time_anim c w).nextHandle = w.nextHandle + 1 := by
  obtain ⟨d, h1, h2, h3⟩ := switch_arms c w
  obtain ⟨g1, g2, g3⟩ := disabled_redraw_timers c (set_time_anim_switch c w).2
    (set_time_anim_switch c w).1
  refine ⟨d, ?_⟩
  unfold set_time_anim
  simp only []
  split_ifs <;> simp only [g1, g2, g3, h1, h2, h3, and_self]


theorem tick_handler_arms (c : Clock) (w : Watch) :
    (tick_handler c w).scheduler =
        (match w.timer with
          | some h => w.scheduler.filter (fun t => decide (t.handle ≠ h))
          | none => w.scheduler) ++ [⟨w.nextHandle, PROMPT_DELTA⟩]
      ∧ (tick_handler c w).timer = some w.nextHandle
      ∧ (tick_handler c w).nextHandle = w.nextHandle + 1 := by
  unfold tick_handler
  cases hw : w.timer <;> dsimp only <;> split_ifs <;> exact ⟨rfl, rfl, rfl⟩

theorem sync_timers (key : Nat) (v : Tuple) (w : Watch) :
    (sync_tuple_changed_callback key v w).scheduler = w.scheduler
      ∧ (sync_tuple_changed_callback key v w).timer = w.timer := by
  unfold sync_tuple_changed_callback
  split_ifs <;> exact ⟨rfl, rfl⟩

theorem tick_handler_OneTimer (c : Clock) (w : Watch) (h : OneTimer w ∨ NoTimer w) :
    OneTimer (tick_handler c w) := by
  obtain ⟨h1, h2, -⟩ := tick_handler_arms c w
  refine ⟨⟨w.nextHandle, PROMPT_DELTA⟩, ?_, h2⟩
  rw [h1]
  rcases h with ⟨t, ht, hh⟩ | ⟨hs, hn⟩
  · simp [ht, hh]
  · simp [hs, hn]

theorem fire_OneTimer (h : Nat) (c : Clock) (w w' : Watch) (hw : OneTimer w)
    (hf : fire h c w = some w') : OneTimer w' := by
  obtain ⟨t, ht, -⟩ := hw
  unfold fire at hf
  split_ifs at hf with hany
  have hth : t.handle = h := by simpa [ht] using hany
  obtain ⟨d, h1, h2, -⟩ := set_time_anim_arms c (app_timer_cancel h w)
  have hw' : w' = set_time_anim c (app_timer_cancel h w) := by
    simpa using hf.symm
  refine ⟨⟨(app_timer_cancel h w).nextHandle, d⟩, ?_, ?_⟩
  · rw [hw', h1]
    simp [app_timer_cancel, ht, hth]
  · rw [hw', h2]

theorem fire_NoTimer (h : Nat) (c : Clock) (w : Watch) (hw : NoTimer w) :
    fire h c w = none := by
  simp [fire, hw.1]

theorem exec_OneTimer (evs : List Event) :
    ∀ w w', OneTimer w → exec evs w = some w' → OneTimer w' := by
  induction evs with
  | nil =>
    intro w w' hw h
    simp only [exec, Option.some.injEq] at h
    exact h ▸ hw
  | cons e es ih =>
    intro w w' hw h
    simp only [exec] at h
    cases e with
    | tick c =>
      exact ih _ _ (tick_handler_OneTimer c w (Or.inl hw)) (by simpa [step] using h)
    | fire hd c =>
      cases hf : fire hd c w with
      | none => simp [step, hf] at h
      | some w1 =>
        exact ih _ _ (fire_OneTimer hd c w w1 hw hf) (by simpa [step, hf] using h)
    | sync key v =>
      have hs := sync_timers key v w
      refine ih _ _ ?_ (by simpa [step] using h)
      obtain ⟨t, ht, hh⟩ := hw
      exact ⟨t, hs.1.trans ht, hs.2.trans hh⟩

theorem exec_NoTimer (evs : List Event) :
    ∀ w w', NoTimer w → exec evs w = some w' →
      (evs.any Event.isTick = true → OneTimer w') ∧
      (evs.any Event.isTick = false → NoTimer w') := by
  induction evs with
  | nil =>
    intro w w' hw h
    simp only [exec, Option.some.injEq] at h
    subst h
    simp [hw]
  | cons e es ih =>
    intro w w' hw h
    simp only [exec] at h
    cases e with
    | tick c =>
      have h1 := exec_OneTimer es _ w' (tick_handler_OneTimer c w (Or.inr hw))
        (by simpa [step] using h)
      simp [Event.isTick, h1]
    | fire hd c =>
      simp [step, fire_NoTimer hd c w hw] at h
    | sync key v =>
      have hs := sync_timers key v w
      have := ih _ w' ⟨hs.1.trans hw.1, hs.2.trans hw.2⟩ (by simpa [step] using h)
      simpa [Event.isTick] using this

theorem boot_NoTimer (stored : Option persist) : NoTimer (boot stored) := ⟨rfl, rfl⟩

theorem tick_handler_single (c : Clock) (w : Watch) (h : OneTimer w ∨ NoTimer w) :
    (tick_handler c w).scheduler = [⟨w.nextHandle, PROMPT_DELTA⟩]
      ∧ (tick_handler c w).timer = some w.nextHandle := by
  obtain ⟨h1, h2, -⟩ := tick_handler_arms c w
  refine ⟨?_, h2⟩
  rw [h1]
  rcases h with ⟨t, ht, hh⟩ | ⟨hs, hn⟩
  · simp [ht, hh]
  · simp [hs, hn]

theorem fire_single (h : Nat) (c : Clock) (w w' : Watch) (hw : OneTimer w ∨ NoTimer w)
    (hf : fire h c w = some w') :
    ∃ d, w'.scheduler = [⟨w.nextHandle, d⟩] ∧ w'.timer = some w.nextHandle := by
  rcases hw with ⟨t, ht, -⟩ | hn
  · unfold fire at hf
    split_ifs at hf with hany
    have hth : t.handle = h := by simpa [ht] using hany
    obtain ⟨d, h1, h2, -⟩ := set_time_anim_arms c (app_timer_cancel h w)
    have hw' : w' = set_time_anim c (app_timer_cancel h w) := by
      simpa using hf.symm
    refine ⟨d, ?_, ?_⟩
    · rw [hw', h1]
      simp [app_timer_cancel, ht, hth]
    · rw [hw', h2]
      rfl
  · rw [fire_NoTimer h c w hn] at hf
    exact absurd hf (by simp)

/-- Claim C1: in every state reached from boot by any sequence of minute ticks,
timer firings and settings updates, once a minute tick has run exactly one timer
is armed in the scheduler and `timer` records its handle (before the first
minute tick no timer is armed and `timer` is `NULL`); from such a state
`tick_handler` leaves exactly one armed timer, the new one it registers with
`PROMPT_DELTA` after cancelling the recorded one, and a timer firing leaves
exactly one armed timer, the new one that `set_time_anim` registers. -/
theorem C1_exactly_one_pending_timer (stored : Option persist) (evs : List Event) (w : Watch)
    (h : exec evs (boot stored) = some w) :
    (evs.any Event.isTick = true →
        ∃ t : AppTimer, w.scheduler = [t] ∧ w.timer = some t.handle) ∧
    (evs.any Event.isTick = false → w.scheduler = [] ∧ w.timer = none) ∧
    (∀ c, (tick_handler c w).scheduler = [⟨w.nextHandle, PROMPT_DELTA⟩]
        ∧ (tick_handler c w).timer = some w.nextHandle) ∧
    (∀ hd c w', fire hd c w = some w' →
        ∃ d, w'.scheduler = [⟨w.nextHandle, d⟩] ∧ w'.timer = some w.nextHandle) := by
  have key := exec_NoTimer evs (boot stored) w (boot_NoTimer stored) h
  have hw : OneTimer w ∨ NoTimer w := by
    cases ht : evs.any Event.isTick
    · exact Or.inr (key.2 ht)
    · exact Or.inl (key.1 ht)
  exact ⟨key.1, key.2, fun c => tick_handler_single c w hw,
    fun hd c w' hf => fire_single hd c w w' hw hf⟩

/-! ## What one step of the animation does to the counters -/

theorem switch_frame (c : Clock) (w : Watch) :
    (set_time_anim_switch c w).1.state = w.state
      ∧ (set_time_anim_switch c w).1.settings = w.settings
      ∧ (w.state ≠ 16 → (set_time_anim_switch c w).1.secondsSync = w.secondsSync) := by
  unfold set_time_anim_switch set_time_anim_default
  split
  all_goals (try dsimp only)
  all_goals (try split_ifs)
  all_goals first
    | exact ⟨rfl, rfl, fun _ => rfl⟩
    | exact ⟨rfl, rfl, fun h => absurd (by assumption) h⟩

theorem disabled_redraw_frame (c : Clock) (b : Bool) (w : Watch) :
    (disabled_redraw c b w).state = w.state
      ∧ (disabled_redraw c b w).settings = w.settings
      ∧ (disabled_redraw c b w).secondsSync = w.secondsSync
      ∧ (disabled_redraw c b w).prompt_visible = w.prompt_visible
      ∧ (disabled_redraw c b w).firstRun = w.firstRun
      ∧ (disabled_redraw c b w).initTime = w.initTime := by
  unfold disabled_redraw
  simp only [set_time, text_layer_set_text, layer_add_child, layer_remove_from_parent]
  split_ifs <;> exact ⟨rfl, rfl, rfl, rfl, rfl, rfl⟩

/-- Progress after one step: held while the fast-forward is being consumed,
one more otherwise. -/
theorem set_time_anim_state (c : Clock) (w : Watch) :
    (set_time_anim c w).state =
      if w.settings.TypingAnimation = 0 ∧ w.state > 16 ∧ w.secondsSync > 0 then w.state
      else w.state + 1 := by
  obtain ⟨h1, h2, h3⟩ := switch_frame c w
  obtain ⟨g1, -, g3, -⟩ := disabled_redraw_frame c (set_time_anim_switch c w).2
    (set_time_anim_switch c w).1
  unfold set_time_anim
  simp only [h1, h2, Bool.and_eq_true, decide_eq_true_eq]
  by_cases ha : w.settings.TypingAnimation = 0 ∧ w.state > 16
  · have h16 : w.state ≠ 16 := by omega
    rw [if_pos ha, g3, h3 h16]
    by_cases hs : w.secondsSync > 0
    · rw [if_pos hs, if_pos ⟨ha.1, ha.2, hs⟩, g1, h1]
    · rw [if_neg hs, if_neg (fun h => hs h.2.2), g1, h1]
  · rw [if_neg ha, if_neg (fun h => ha ⟨h.1, h.2.1⟩)]

/-! ## Runs of consecutive timer firings -/

theorem typing_held_reached :
    exec (tick_then_fires 17) (boot (some animation_off)) = some typing_held := by
  decide

set_option maxRecDepth 100000 in
theorem idle_off_reached :
    exec (tick_then_fires 45) (boot (some animation_off)) = some idle_off := by
  decide

/-- Instance of C1: after the first minute tick and 17 timer firings one timer is
armed and `timer` records it. -/
theorem C1_exactly_one_pending_timer_witness :
    exec (tick_then_fires 17) (boot (some animation_off)) = some typing_held
      ∧ (tick_then_fires 17).any Event.isTick = true
      ∧ ∃ t : AppTimer, typing_held.scheduler = [t] ∧ typing_held.timer = some t.handle :=
  ⟨typing_held_reached, by decide,
    (C1_exactly_one_pending_timer (some animation_off) (tick_then_fires 17) typing_held
      typing_held_reached).1 (by decide)⟩

/-! ## The minute tick -/

theorem tick_handler_state (c : Clock) (w : Watch) :
    (tick_handler c w).state =
      if w.timer.isSome = true ∧ w.firstRun = true ∧ w.state < 26 then w.state
      else if w.firstRun = false ∧ w.settings.TypingAnimation = 0 then
        (if w.state > 25 then 25 else w.state)
      else 0 := by
  unfold tick_handler
  cases hw : w.timer <;> cases hf : w.firstRun <;>
    simp [arm, app_timer_register, app_timer_cancel, set_time, text_layer_set_text,
      layer_add_child, layer_remove_from_parent, hf] <;>
    split_ifs <;> simp_all

/-- Claim C2, amended: when it is not the case that first run is on and progress
is below 26, a minute tick leaves progress exactly 0 if first run is on or the
typing animation is enabled; if first run is over and the animation is disabled,
progress is not reset: it becomes 25 when it was above 25 and is otherwise
unchanged. -/
theorem C2_tick_resets_progress (c : Clock) (w : Watch)
    (h : ¬ (w.firstRun = true ∧ w.state < 26)) :
    ((w.firstRun = true ∨ w.settings.TypingAnimation ≠ 0) → (tick_handler c w).state = 0) ∧
    ((w.firstRun = false ∧ w.settings.TypingAnimation = 0) →
        (tick_handler c w).state = if w.state > 25 then 25 else w.state) := by
  rw [tick_handler_state]
  constructor
  · intro h2
    rw [if_neg (fun h3 => h h3.2), if_neg]
    rintro ⟨h4, h5⟩
    rcases h2 with h2 | h2
    · rw [h2] at h4
      exact absurd h4 (by decide)
    · exact h2 h5
  · intro h2
    rw [if_neg (fun h3 => h h3.2), if_pos h2]

/-- Instance of C2: in the steady state `idle_off` (first run over, animation
off, progress 35) the tick sets progress to 25. -/
theorem C2_tick_resets_progress_witness :
    ¬ (idle_off.firstRun = true ∧ idle_off.state < 26)
      ∧ (idle_off.firstRun = false ∧ idle_off.settings.TypingAnimation = 0)
      ∧ (tick_handler clock0 idle_off).state = if idle_off.state > 25 then 25 else idle_off.state :=
  ⟨by decide, by decide,
    (C2_tick_resets_progress clock0 idle_off (by decide)).2 (by decide)⟩

/-- Claim C2 as stated fails: `idle_off` is not in first run (so the exception
does not apply), yet the minute tick leaves progress 25, not 0. -/
theorem C2_counterexample :
    exec (tick_then_fires 45) (boot (some animation_off)) = some idle_off
      ∧ ¬ (idle_off.firstRun = true ∧ idle_off.state < 26)
      ∧ (tick_handler clock0 idle_off).state = 25
      ∧ (tick_handler clock0 idle_off).state ≠ 0 :=
  ⟨idle_off_reached, by decide⟩

theorem set_time_anim_state_ge (c : Clock) (w : Watch) (n : Int) (h : n ≤ w.state) :
    n ≤ (set_time_anim c w).state := by
  rw [set_time_anim_state]
  split_ifs <;> omega

theorem sync_state (key : Nat) (v : Tuple) (w : Watch) :
    (sync_tuple_changed_callback key v w).state = w.state := by
  unfold sync_tuple_changed_callback
  split_ifs <;> rfl

theorem exec_no_tick_state_ge (n : Int) (evs : List Event) :
    ∀ w w', evs.any Event.isTick = false → n ≤ w.state → exec evs w = some w' →
      n ≤ w'.state := by
  induction evs with
  | nil =>
    intro w w' _ hw h
    simp only [exec, Option.some.injEq] at h
    exact h ▸ hw
  | cons e es ih =>
    intro w w' hnt hw h
    simp only [exec] at h
    cases e with
    | tick c => simp [Event.isTick] at hnt
    | fire hd c =>
      have hes : es.any Event.isTick = false := by simpa [Event.isTick] using hnt
      simp only [step, fire] at h
      split_ifs at h
      · exact ih _ w' hes (set_time_anim_state_ge c (app_timer_cancel hd w) n hw)
          (by simpa using h)
      · simp at h
    | sync key v =>
      have hes : es.any Event.isTick = false := by simpa [Event.isTick] using hnt
      exact ih (sync_tuple_changed_callback key v w) w' hes
        (by rw [sync_state]; exact hw) (by simpa [step] using h)

/-- Claim C4, amended: with first run over and the typing animation disabled, a
minute tick sets progress to 25 when it was above 25 and leaves it unchanged
otherwise (it never raises it to 26 or more); when progress was at least 24
before the tick it is at least 24 after it and stays at least 24 through every
sequence of timer firings and settings updates that follows before the next
minute tick, so that only idle steps and no typing step (progress 1..22) run. -/
theorem C4_tick_with_animation_off (c : Clock) (w : Watch)
    (hfr : w.firstRun = false) (han : w.settings.TypingAnimation = 0) :
    (tick_handler c w).state = (if w.state > 25 then 25 else w.state)
      ∧ (24 ≤ w.state →
          24 ≤ (tick_handler c w).state ∧
          ∀ evs w', evs.any Event.isTick = false →
            exec evs (tick_handler c w) = some w' → 24 ≤ w'.state) := by
  have hs : (tick_handler c w).state = (if w.state > 25 then 25 else w.state) := by
    rw [tick_handler_state, if_neg, if_pos ⟨hfr, han⟩]
    rintro ⟨-, h2, -⟩
    rw [hfr] at h2
    exact absurd h2 (by decide)
  refine ⟨hs, fun h24 => ?_⟩
  have h24' : 24 ≤ (tick_handler c w).state := by
    rw [hs]
    split_ifs <;> omega
  exact ⟨h24', fun evs w' hnt he => exec_no_tick_state_ge 24 evs _ w' hnt h24' he⟩

/-- Instance of C4: the steady state `idle_off`. -/
theorem C4_tick_with_animation_off_witness :
    idle_off.firstRun = false ∧ idle_off.settings.TypingAnimation = 0
      ∧ 24 ≤ idle_off.state
      ∧ (tick_handler clock0 idle_off).state = (if idle_off.state > 25 then 25 else idle_off.state)
      ∧ 24 ≤ (tick_handler clock0 idle_off).state :=
  ⟨by decide, by decide, by decide,
    (C4_tick_with_animation_off clock0 idle_off (by decide) (by decide)).1,
    ((C4_tick_with_animation_off clock0 idle_off (by decide) (by decide)).2 (by decide)).1⟩

/-- Claim C4 as stated fails: in `idle_off` first run is over and the animation
is disabled, and after the minute tick progress is 25, which is not 26 or more. -/
theorem C4_counterexample :
    exec (tick_then_fires 45) (boot (some animation_off)) = some idle_off
      ∧ idle_off.firstRun = false ∧ idle_off.settings.TypingAnimation = 0
      ∧ (tick_handler clock0 idle_off).state = 25
      ∧ ¬ (26 ≤ (tick_handler clock0 idle_off).state) :=
  ⟨idle_off_reached, by decide⟩

/-! ## Typing steps -/

theorem switch_secondsSync_16 (c : Clock) (w : Watch) (h : w.state = 16) :
    (set_time_anim_switch c w).1.secondsSync =
      if w.firstRun = true ∧ w.secondsSync = 0 ∧ w.settings.TypingAnimation = 0 then 10
      else w.secondsSync := by
  unfold set_time_anim_switch
  rw [h]
  simp only [layer_add_child, text_layer_set_text, Bool.and_eq_true, decide_eq_true_eq]
  by_cases hc : (w.firstRun = true ∧ w.secondsSync = 0) ∧ w.settings.TypingAnimation = 0
  · rw [if_pos hc, if_pos ⟨hc.1.1, hc.1.2, hc.2⟩]
    rfl
  · rw [if_neg hc, if_neg (fun h => hc ⟨⟨h.1, h.2.1⟩, h.2.2⟩)]
    rfl

/-- The fast-forward count after one step: set to 10 at progress 16 in a first
run with the animation disabled, consumed by one while it holds progress,
unchanged otherwise. -/
theorem set_time_anim_secondsSync (c : Clock) (w : Watch) :
    (set_time_anim c w).secondsSync =
      if w.state = 16 then
        (if w.firstRun = true ∧ w.secondsSync = 0 ∧ w.settings.TypingAnimation = 0 then 10
         else w.secondsSync)
      else if w.settings.TypingAnimation = 0 ∧ w.state > 16 ∧ w.secondsSync > 0 then
        w.secondsSync - 1
      else w.secondsSync := by
  obtain ⟨h1, h2, h3⟩ := switch_frame c w
  obtain ⟨-, -, g3, -⟩ := disabled_redraw_frame c (set_time_anim_switch c w).2
    (set_time_anim_switch c w).1
  unfold set_time_anim
  simp only [h1, h2, Bool.and_eq_true, decide_eq_true_eq]
  by_cases h16 : w.state = 16
  · have hn : ¬ (w.settings.TypingAnimation = 0 ∧ w.state > 16) := by omega
    rw [if_neg hn, if_pos h16]
    exact switch_secondsSync_16 c w h16
  · rw [if_neg h16]
    by_cases ha : w.settings.TypingAnimation = 0 ∧ w.state > 16
    · rw [if_pos ha, g3, h3 h16]
      by_cases hs : w.secondsSync > 0
      · rw [if_pos hs, if_pos ⟨ha.1, ha.2, hs⟩]
      · rw [if_neg hs, if_neg (fun h => hs h.2.2)]
    · rw [if_neg ha, if_neg (fun h => ha ⟨h.1, h.2.1⟩)]
      exact h3 h16

/-- Claim C5, amended: at a progress p in [1,7], [9,15] or [17,22] one step of
`set_time_anim` leaves progress exactly p + 1, except when p is in [17,22], the
typing animation is disabled and the fast-forward count `secondsSync` is
positive: then progress stays p and `secondsSync` goes down by one. -/
theorem C5_typing_step_progress (c : Clock) (w : Watch)
    (hp : (1 ≤ w.state ∧ w.state ≤ 7) ∨ (9 ≤ w.state ∧ w.state ≤ 15)
      ∨ (17 ≤ w.state ∧ w.state ≤ 22)) :
    (¬ (w.settings.TypingAnimation = 0 ∧ 17 ≤ w.state ∧ 0 < w.secondsSync) →
        (set_time_anim c w).state = w.state + 1) ∧
    ((w.settings.TypingAnimation = 0 ∧ 17 ≤ w.state ∧ 0 < w.secondsSync) →
        (set_time_anim c w).state = w.state
          ∧ (set_time_anim c w).secondsSync = w.secondsSync - 1) := by
  have h16 : w.state ≠ 16 := by omega
  rw [set_time_anim_state, set_time_anim_secondsSync, if_neg h16]
  constructor
  · intro hn
    rw [if_neg]
    rintro ⟨h1, h2, h3⟩
    exact hn ⟨h1, by omega, h3⟩
  · rintro ⟨h1, h2, h3⟩
    have hc : w.settings.TypingAnimation = 0 ∧ w.state > 16 ∧ w.secondsSync > 0 :=
      ⟨h1, by omega, h3⟩
    rw [if_pos hc, if_pos hc]
    exact ⟨rfl, rfl⟩

/-- Instance of C5: the state `typing_held` once its timer 17 has fired
(progress 17, animation disabled, `secondsSync` 10). -/
theorem C5_typing_step_progress_witness :
    (17 ≤ (app_timer_cancel 17 typing_held).state ∧ (app_timer_cancel 17 typing_held).state ≤ 22)
      ∧ ((app_timer_cancel 17 typing_held).settings.TypingAnimation = 0
          ∧ 17 ≤ (app_timer_cancel 17 typing_held).state
          ∧ 0 < (app_timer_cancel 17 typing_held).secondsSync)
      ∧ (set_time_anim clock0 (app_timer_cancel 17 typing_held)).state
          = (app_timer_cancel 17 typing_held).state
      ∧ (set_time_anim clock0 (app_timer_cancel 17 typing_held)).secondsSync
          = (app_timer_cancel 17 typing_held).secondsSync - 1 :=
  ⟨by decide, by decide,
    (C5_typing_step_progress clock0 (app_timer_cancel 17 typing_held)
      (Or.inr (Or.inr (by decide)))).2 (by decide)⟩

/-- Claim C5 as stated fails: `typing_held` is at progress 17 with the animation
disabled and `secondsSync` 10; when its timer fires, `set_time_anim` leaves
progress at 17, not 18. -/
theorem C5_counterexample :
    exec (tick_then_fires 17) (boot (some animation_off)) = some typing_held
      ∧ typing_held.state = 17 ∧ typing_held.settings.TypingAnimation = 0
      ∧ typing_held.secondsSync = 10
      ∧ (fire 17 clock0 typing_held).map Watch.state = some 17
      ∧ (set_time_anim clock0 (app_timer_cancel 17 typing_held)).state = 17
      ∧ (set_time_anim clock0 (app_timer_cancel 17 typing_held)).state ≠ 17 + 1 :=
  ⟨typing_held_reached, by decide⟩

/-! ## Text typed into the labels -/

theorem switch_at (c : Clock) (w : Watch) (k : Int) (h : w.state = k) :
    set_time_anim_switch c w = set_time_anim_switch c { w with state := k } := by
  subst h
  rfl

theorem set_time_anim_label_text (c : Clock) (w : Watch) (l : TextLayer)
    (hl : l = .date_label ∨ l = .hour_label ∨ l = .time_label ∨ l = .prompt_label) :
    text_layer_get_text l (set_time_anim c w)
      = text_layer_get_text l (set_time_anim_switch c w).1 := by
  unfold set_time_anim disabled_redraw
  simp only [set_time, text_layer_set_text, layer_add_child, layer_remove_from_parent]
  split_ifs <;> rcases hl with rfl | rfl | rfl | rfl <;> rfl

theorem typed_label_cases (p : Int) :
    typed_label p = .date_label ∨ typed_label p = .hour_label
      ∨ typed_label p = .time_label ∨ typed_label p = .prompt_label := by
  unfold typed_label
  split_ifs <;> simp

theorem tick_handler_restart_label (c : Clock) (w : Watch)
    (h1 : ¬ (w.timer.isSome = true ∧ w.firstRun = true ∧ w.state < 26))
    (h2 : w.firstRun = true ∨ w.settings.TypingAnimation ≠ 0) :
    (tick_handler c w).date_label = "pebble>" ∧ (tick_handler c w).state = 0 := by
  have hc : ¬ (w.firstRun = false ∧ w.settings.TypingAnimation = 0) := by
    rintro ⟨h3, h4⟩
    rcases h2 with h2 | h2
    · rw [h2] at h3
      exact absurd h3 (by decide)
    · exact h2 h4
  unfold tick_handler
  cases hw : w.timer <;> cases hf : w.firstRun <;>
    simp [arm, app_timer_register, app_timer_cancel, set_time, text_layer_set_text,
      layer_add_child, layer_remove_from_parent, hf] <;>
    (try split_ifs) <;>
    first
      | exact ⟨rfl, rfl⟩
      | omega
      | simp_all

theorem switch_16_time_label (c : Clock) (w : Watch) (h : w.state = 16) :
    (set_time_anim_switch c w).1.time_label = "pebble>" := by
  unfold set_time_anim_switch
  rw [h]
  dsimp only
  split_ifs <;> rfl

/-- Claim C6 as stated fails at progress 5: in the first run with default
settings the date label holds `pebble>date` after the step at progress 4, and the
step at progress 5 writes `pebble>date +`, which is that text with two characters
appended, not one. -/
theorem C6_counterexample :
    (exec (tick_then_fires 5) (boot none)).map Watch.state = some 5
      ∧ (exec (tick_then_fires 5) (boot none)).map Watch.date_label = some "pebble>date"
      ∧ (exec (tick_then_fires 6) (boot none)).map Watch.date_label = some "pebble>date +"
      ∧ ¬ ∃ ch : Char, "pebble>date +" = "pebble>date" ++ String.singleton ch := by
  refine ⟨by decide, by decide, by decide, ?_⟩
  rintro ⟨ch, h⟩
  have hl := congrArg String.length h
  rw [String.length_append, String.length_singleton] at hl
  exact absurd hl (by decide)

/-! ## Delays -/

theorem switch_default (c : Clock) (w : Watch) (h : w.state < 0 ∨ 23 < w.state) :
    set_time_anim_switch c w = (set_time_anim_default w, false) := by
  unfold set_time_anim_switch
  split
  all_goals (try omega)
  rfl

theorem switch_scheduler_default (c : Clock) (w : Watch) (h : w.state < 0 ∨ 23 < w.state) :
    (set_time_anim_switch c w).1.scheduler
      = w.scheduler ++ [{ handle := w.nextHandle, timeout_ms := PROMPT_DELTA }] := by
  rw [switch_default c w h]
  unfold set_time_anim_default
  dsimp only
  split_ifs <;> rfl

theorem switch_scheduler_16 (c : Clock) (w : Watch) (h : w.state = 16) :
    (set_time_anim_switch c w).1.scheduler
      = w.scheduler ++ [{ handle := w.nextHandle, timeout_ms :=
          if w.firstRun = true ∧ w.secondsSync = 0 ∧ w.settings.TypingAnimation = 0
          then TYPE_DELTA else 10 * TYPE_DELTA }] := by
  unfold set_time_anim_switch
  rw [h]
  simp only [layer_add_child, text_layer_set_text, Bool.and_eq_true, decide_eq_true_eq]
  by_cases hc : (w.firstRun = true ∧ w.secondsSync = 0) ∧ w.settings.TypingAnimation = 0
  · rw [if_pos hc, if_pos ⟨hc.1.1, hc.1.2, hc.2⟩]
    rfl
  · rw [if_neg hc, if_neg (fun h => hc ⟨⟨h.1, h.2.1⟩, h.2.2⟩)]
    rfl

theorem switch_scheduler (c : Clock) (w : Watch) :
    (set_time_anim_switch c w).1.scheduler
      = w.scheduler ++ [{ handle := w.nextHandle, timeout_ms := step_delay w }] := by
  have hcases : (w.state < 0 ∨ 23 < w.state) ∨ w.state = 16 ∨ w.state = 0 ∨ w.state = 1
      ∨ w.state = 2 ∨ w.state = 3 ∨ w.state = 4 ∨ w.state = 5 ∨ w.state = 6 ∨ w.state = 7
      ∨ w.state = 8 ∨ w.state = 9 ∨ w.state = 10 ∨ w.state = 11 ∨ w.state = 12
      ∨ w.state = 13 ∨ w.state = 14 ∨ w.state = 15 ∨ w.state = 17 ∨ w.state = 18
      ∨ w.state = 19 ∨ w.state = 20 ∨ w.state = 21 ∨ w.state = 22 ∨ w.state = 23 := by
    omega
  rcases hcases with h | h | h | h | h | h | h | h | h | h | h | h | h | h | h | h | h | h
    | h | h | h | h | h | h | h
  · rw [switch_scheduler_default c w h]
    have h8 : w.state ≠ 8 := by omega
    have h16 : w.state ≠ 16 := by omega
    have hr : ¬ (0 ≤ w.state ∧ w.state ≤ 22) := by omega
    simp only [step_delay, if_neg h8, if_neg h16, if_neg hr]
  · rw [switch_scheduler_16 c w h]
    have h8 : w.state ≠ 8 := by omega
    simp only [step_delay, if_neg h8, if_pos h]
  all_goals
    rw [switch_at c w _ h]
    unfold step_delay
    rw [h]
    rfl

theorem set_time_anim_scheduler (c : Clock) (w : Watch) :
    (set_time_anim c w).scheduler
      = w.scheduler ++ [{ handle := w.nextHandle, timeout_ms := step_delay w }] := by
  obtain ⟨g1, -, -⟩ := disabled_redraw_timers c (set_time_anim_switch c w).2
    (set_time_anim_switch c w).1
  rw [← switch_scheduler c w]
  unfold set_time_anim
  simp only []
  split_ifs <;> simp only [g1]

theorem armed_delay_set_time_anim (c : Clock) (w : Watch) :
    armed_delay (set_time_anim c w) = some (step_delay w) := by
  simp [armed_delay, set_time_anim_scheduler]

theorem armed_delay_tick_handler (c : Clock) (w : Watch) :
    armed_delay (tick_handler c w) = some PROMPT_DELTA := by
  simp [armed_delay, (tick_handler_arms c w).1]

/-! ## Consecutive firings -/

theorem set_time_anim_settings (c : Clock) (w : Watch) :
    (set_time_anim c w).settings = w.settings := by
  obtain ⟨-, h2, -⟩ := switch_frame c w
  obtain ⟨-, g2, -⟩ := disabled_redraw_frame c (set_time_anim_switch c w).2
    (set_time_anim_switch c w).1
  unfold set_time_anim
  simp only []
  split_ifs <;> simp only [g2, h2]

/-- When exactly the recorded timer is armed it can fire, and firing it runs
`set_time_anim` on the state without that timer. -/
theorem fire_recorded_OneTimer (c : Clock) (w : Watch) (hw : OneTimer w) :
    ∃ w0 : Watch, fire_recorded c w = some (set_time_anim c w0)
      ∧ w0.state = w.state ∧ w0.settings = w.settings ∧ w0.firstRun = w.firstRun
      ∧ w0.secondsSync = w.secondsSync ∧ w0.prompt_visible = w.prompt_visible
      ∧ w0.initTime = w.initTime
      ∧ OneTimer (set_time_anim c w0) := by
  obtain ⟨t, ht, hh⟩ := hw
  refine ⟨app_timer_cancel t.handle w, ?_, rfl, rfl, rfl, rfl, rfl, rfl, ?_⟩
  · simp [fire_recorded, hh, fire, ht]
  · obtain ⟨d, h1, h2, -⟩ := set_time_anim_arms c (app_timer_cancel t.handle w)
    refine ⟨⟨w.nextHandle, d⟩, ?_, h2⟩
    rw [h1]
    simp [app_timer_cancel, ht]

theorem step_delay_congr (w1 w2 : Watch) (h : w1.state = w2.state)
    (h1 : w1.settings.TypingAnimation ≠ 0) (h2 : w2.settings.TypingAnimation ≠ 0) :
    step_delay w1 = step_delay w2 := by
  unfold step_delay
  rw [h]
  simp only [h1, h2, and_false, if_false]

/-- With the typing animation enabled, consecutive firings run at consecutive
progress values, each arming the delay of its case. -/
theorem advance_log_enabled (n : Nat) :
    ∀ (cs : Nat → Clock) (w : Watch), OneTimer w → w.settings.TypingAnimation ≠ 0 →
      advance_log cs n w = (List.range n).map
        (fun (i : Nat) =>
          (w.state + (i : Int), some (step_delay { w with state := w.state + (i : Int) }))) := by
  induction n with
  | zero =>
    intro cs w _ _
    rfl
  | succ n ih =>
    intro cs w hw ha
    obtain ⟨w0, hf, hs, hset, -, -, -, -, hone⟩ := fire_recorded_OneTimer (cs 0) w hw
    have ha0 : w0.settings.TypingAnimation ≠ 0 := by rw [hset]; exact ha
    have ha' : (set_time_anim (cs 0) w0).settings.TypingAnimation ≠ 0 := by
      rw [set_time_anim_settings]; exact ha0
    have hst : (set_time_anim (cs 0) w0).state = w.state + 1 := by
      rw [set_time_anim_state, if_neg (fun hc => ha0 hc.1), hs]
    simp only [advance_log, hf]
    rw [ih _ _ hone ha', armed_delay_set_time_anim, List.range_succ_eq_map, List.map_cons,
      List.map_map]
    congr 1
    · simp only [Nat.cast_zero, add_zero]
      rw [step_delay_congr w0 _ hs ha0 ha]
    · apply List.map_congr_left
      intro i _
      simp only [Function.comp, hst, Nat.succ_eq_add_one, Nat.cast_add, Nat.cast_one]
      rw [show w.state + 1 + (i : Int) = w.state + ((i : Int) + 1) by ring]
      congr 2
      exact step_delay_congr _ _ rfl ha' ha

/-- Claim C7: from the boot state with the default settings, the first minute
tick followed by 24 consecutive timer firings (at any clock readings) runs
`set_time_anim` at progress 0, 1, 2, ..., 23 in that order; the delay armed at
progress p is `TYPE_DELTA` (200 ms) for every p in 0..22 other than 8 and 16, and
the strictly longer `10 * TYPE_DELTA` (2000 ms) at p = 8 and p = 16. -/
theorem C7_first_run_sequence (ct : Clock) (cs : Nat → Clock) :
    advance_log cs 24 (tick_handler ct (boot none)) =
        [(0, some TYPE_DELTA), (1, some TYPE_DELTA), (2, some TYPE_DELTA), (3, some TYPE_DELTA),
         (4, some TYPE_DELTA), (5, some TYPE_DELTA), (6, some TYPE_DELTA), (7, some TYPE_DELTA),
         (8, some (10 * TYPE_DELTA)),
         (9, some TYPE_DELTA), (10, some TYPE_DELTA), (11, some TYPE_DELTA),
         (12, some TYPE_DELTA), (13, some TYPE_DELTA), (14, some TYPE_DELTA),
         (15, some TYPE_DELTA),
         (16, some (10 * TYPE_DELTA)),
         (17, some TYPE_DELTA), (18, some TYPE_DELTA), (19, some TYPE_DELTA),
         (20, some TYPE_DELTA), (21, some TYPE_DELTA), (22, some TYPE_DELTA),
         (23, some PROMPT_DELTA)]
      ∧ TYPE_DELTA = 200 ∧ TYPE_DELTA < 10 * TYPE_DELTA := by
  refine ⟨?_, rfl, by decide⟩
  rw [advance_log_enabled 24 cs _ (tick_handler_OneTimer ct _ (Or.inr (boot_NoTimer none)))
    (by rw [show (tick_handler ct (boot none)).settings = default_settings from rfl]; decide)]
  rfl

/-- Claim C8, amended: there are two long delays, not one. `set_time_anim` arms
`10 * TYPE_DELTA` (2000 ms) at the two settle steps (progress 8, and progress 16
when the fast-forward does not start), and `PROMPT_DELTA` (1000 ms) at progress
23 and at every idle step (progress 24 or more); `tick_handler` arms
`PROMPT_DELTA` too. Both are greater than the fast delay `TYPE_DELTA` (200 ms),
which is armed at progress 0 and at every typing step. -/
theorem C8_two_long_delays (c : Clock) (w : Watch) :
    (w.state = 8 → armed_delay (set_time_anim c w) = some (10 * TYPE_DELTA))
    ∧ (w.state = 16 →
        ¬ (w.firstRun = true ∧ w.secondsSync = 0 ∧ w.settings.TypingAnimation = 0) →
        armed_delay (set_time_anim c w) = some (10 * TYPE_DELTA))
    ∧ (23 ≤ w.state → armed_delay (set_time_anim c w) = some PROMPT_DELTA)
    ∧ armed_delay (tick_handler c w) = some PROMPT_DELTA
    ∧ ((0 ≤ w.state ∧ w.state ≤ 7) ∨ (9 ≤ w.state ∧ w.state ≤ 15)
          ∨ (17 ≤ w.state ∧ w.state ≤ 22) →
        armed_delay (set_time_anim c w) = some TYPE_DELTA)
    ∧ TYPE_DELTA = 200 ∧ PROMPT_DELTA = 1000 ∧ 10 * TYPE_DELTA = 2000 := by
  refine ⟨?_, ?_, ?_, armed_delay_tick_handler c w, ?_, rfl, rfl, rfl⟩
  · intro h
    rw [armed_delay_set_time_anim, step_delay, if_pos h]
  · intro h hn
    have h8 : w.state ≠ 8 := by omega
    rw [armed_delay_set_time_anim, step_delay, if_neg h8, if_pos h, if_neg hn]
  · intro h
    have h8 : w.state ≠ 8 := by omega
    have h16 : w.state ≠ 16 := by omega
    have hr : ¬ (0 ≤ w.state ∧ w.state ≤ 22) := by omega
    rw [armed_delay_set_time_anim, step_delay, if_neg h8, if_neg h16, if_neg hr]
  · intro h
    have h8 : w.state ≠ 8 := by omega
    have h16 : w.state ≠ 16 := by omega
    have hr : 0 ≤ w.state ∧ w.state ≤ 22 := by omega
    rw [armed_delay_set_time_anim, step_delay, if_neg h8, if_neg h16, if_pos hr]

/-- Instance of C8: the settle step at progress 8 of the first run with default
settings arms 2000 ms. -/
theorem C8_two_long_delays_witness :
    (reached none (tick_then_fires 8)).state = 8
      ∧ armed_delay (set_time_anim clock0 (reached none (tick_then_fires 8)))
          = some (10 * TYPE_DELTA) :=
  ⟨by decide, (C8_two_long_delays clock0 (reached none (tick_then_fires 8))).1 (by decide)⟩

/-- Claim C8 as stated fails: in the first run with default settings the settle
step at progress 8 arms 2000 ms while the step at progress 23 and the minute tick
arm 1000 ms, so the long delays are not one and the same value. -/
theorem C8_counterexample :
    (exec (tick_then_fires 8) (boot none)).map Watch.state = some 8
      ∧ (exec (tick_then_fires 9) (boot none)).bind armed_delay = some 2000
      ∧ (exec (tick_then_fires 23) (boot none)).map Watch.state = some 23
      ∧ (exec (tick_then_fires 24) (boot none)).bind armed_delay = some 1000
      ∧ armed_delay (tick_handler clock0 (boot none)) = some 1000 := by
  decide

/-! ## The cursor flag -/

theorem switch_default_flags (c : Clock) (w : Watch) (h : w.state < 0 ∨ 23 < w.state) :
    (set_time_anim_switch c w).1.prompt_visible = !w.prompt_visible := by
  rw [switch_default c w h]
  unfold set_time_anim_default
  cases hpv : w.prompt_visible <;>
    simp only [hpv, Bool.false_eq_true, if_false, if_true, layer_add_child,
      layer_remove_from_parent, arm, app_timer_register] <;>
    split_ifs <;> rfl

theorem switch_typing_flags (c : Clock) (w : Watch) (h : 0 ≤ w.state ∧ w.state ≤ 23) :
    (set_time_anim_switch c w).1.prompt_visible
        = (if w.state = 23 then true else w.prompt_visible)
      ∧ (set_time_anim_switch c w).1.firstRun = w.firstRun
      ∧ (set_time_anim_switch c w).1.initTime = w.initTime := by
  have hcases : w.state = 16 ∨ w.state = 23 ∨ w.state = 0 ∨ w.state = 1
      ∨ w.state = 2 ∨ w.state = 3 ∨ w.state = 4 ∨ w.state = 5 ∨ w.state = 6 ∨ w.state = 7
      ∨ w.state = 8 ∨ w.state = 9 ∨ w.state = 10 ∨ w.state = 11 ∨ w.state = 12
      ∨ w.state = 13 ∨ w.state = 14 ∨ w.state = 15 ∨ w.state = 17 ∨ w.state = 18
      ∨ w.state = 19 ∨ w.state = 20 ∨ w.state = 21 ∨ w.state = 22 := by
    omega
  rcases hcases with h | h | h | h | h | h | h | h | h | h | h | h | h | h | h | h | h | h
    | h | h | h | h | h | h
  · have h23 : w.state ≠ 23 := by omega
    rw [if_neg h23]
    unfold set_time_anim_switch
    rw [h]
    dsimp only
    split_ifs <;> exact ⟨rfl, rfl, rfl⟩
  · rw [if_pos h, switch_at c w _ h]
    exact ⟨rfl, rfl, rfl⟩
  all_goals
    have h23 : w.state ≠ 23 := by omega
    rw [if_neg h23, switch_at c w _ h]
    exact ⟨rfl, rfl, rfl⟩

theorem set_time_anim_flags (c : Clock) (w : Watch) :
    (set_time_anim c w).prompt_visible = (set_time_anim_switch c w).1.prompt_visible
      ∧ (set_time_anim c w).firstRun = (set_time_anim_switch c w).1.firstRun
      ∧ (set_time_anim c w).initTime = (set_time_anim_switch c w).1.initTime := by
  obtain ⟨-, -, -, g4, g5, g6⟩ := disabled_redraw_frame c (set_time_anim_switch c w).2
    (set_time_anim_switch c w).1
  unfold set_time_anim
  simp only []
  split_ifs <;> simp only [g4, g5, g6, and_self]

/-- The cursor flag after one step: kept in the cases 0 to 22, set in case 23,
toggled in the `default` case. -/
theorem set_time_anim_prompt_visible (c : Clock) (w : Watch) :
    (set_time_anim c w).prompt_visible =
      if 0 ≤ w.state ∧ w.state ≤ 22 then w.prompt_visible
      else if w.state = 23 then true
      else !w.prompt_visible := by
  rw [(set_time_anim_flags c w).1]
  by_cases h : 0 ≤ w.state ∧ w.state ≤ 23
  · rw [(switch_typing_flags c w h).1]
    by_cases h23 : w.state = 23
    · have hn : ¬ (0 ≤ w.state ∧ w.state ≤ 22) := by omega
      rw [if_pos h23, if_neg hn, if_pos h23]
    · have hy : 0 ≤ w.state ∧ w.state ≤ 22 := by omega
      rw [if_neg h23, if_pos hy]
  · have hn : ¬ (0 ≤ w.state ∧ w.state ≤ 22) := by omega
    have h23 : w.state ≠ 23 := by omega
    rw [switch_default_flags c w (by omega), if_neg hn, if_neg h23]

theorem tick_handler_frame (c : Clock) (w : Watch) :
    (tick_handler c w).secondsSync = w.secondsSync
      ∧ (tick_handler c w).firstRun = w.firstRun
      ∧ (tick_handler c w).settings = w.settings
      ∧ (tick_handler c w).initTime = w.initTime := by
  unfold tick_handler
  cases hw : w.timer <;> cases hf : w.firstRun <;>
    simp [arm, app_timer_register, app_timer_cancel, set_time, text_layer_set_text,
      layer_add_child, layer_remove_from_parent, hf] <;>
    split_ifs <;> simp_all

theorem tick_handler_prompt_visible (c : Clock) (w : Watch) :
    (tick_handler c w).prompt_visible =
      if w.timer.isSome = true ∧ w.firstRun = true ∧ w.state < 26 then w.prompt_visible
      else if w.firstRun = false ∧ w.settings.TypingAnimation = 0 then
        (if w.state > 25 then false else w.prompt_visible)
      else false := by
  unfold tick_handler
  cases hw : w.timer <;> cases hf : w.firstRun <;>
    simp [arm, app_timer_register, app_timer_cancel, set_time, text_layer_set_text,
      layer_add_child, layer_remove_from_parent, hf] <;>
    split_ifs <;> simp_all

theorem CursorInv_set_time_anim (c : Clock) (w : Watch) (h : CursorInv w) :
    CursorInv (set_time_anim c w) := by
  obtain ⟨h0, hpv⟩ := h
  unfold CursorInv
  rw [set_time_anim_state, set_time_anim_prompt_visible]
  constructor
  · split_ifs <;> omega
  · intro hlt
    have hs : 0 ≤ w.state ∧ w.state ≤ 22 := by
      split_ifs at hlt <;> omega
    rw [if_pos hs]
    exact hpv (by omega)

theorem CursorInv_tick_handler (c : Clock) (w : Watch) (h : CursorInv w) :
    CursorInv (tick_handler c w) := by
  obtain ⟨h0, hpv⟩ := h
  unfold CursorInv
  rw [tick_handler_state, tick_handler_prompt_visible]
  constructor
  · split_ifs <;> omega
  · intro hlt
    split_ifs at hlt ⊢
    all_goals first
      | rfl
      | omega
      | exact hpv hlt

theorem sync_frame (key : Nat) (v : Tuple) (w : Watch) :
    (sync_tuple_changed_callback key v w).state = w.state
      ∧ (sync_tuple_changed_callback key v w).prompt_visible = w.prompt_visible := by
  unfold sync_tuple_changed_callback
  split_ifs <;> exact ⟨rfl, rfl⟩

theorem exec_CursorInv (evs : List Event) :
    ∀ w w', CursorInv w → exec evs w = some w' → CursorInv w' := by
  induction evs with
  | nil =>
    intro w w' hw h
    simp only [exec, Option.some.injEq] at h
    exact h ▸ hw
  | cons e es ih =>
    intro w w' hw h
    simp only [exec] at h
    cases e with
    | tick c =>
      exact ih (tick_handler c w) w' (CursorInv_tick_handler c w hw) (by simpa [step] using h)
    | fire hd c =>
      simp only [step, fire] at h
      split_ifs at h
      · exact ih _ w' (CursorInv_set_time_anim c (app_timer_cancel hd w) hw) (by simpa using h)
      · simp at h
    | sync key v =>
      obtain ⟨s1, s2⟩ := sync_frame key v w
      refine ih (sync_tuple_changed_callback key v w) w' ?_ (by simpa [step] using h)
      unfold CursorInv
      rw [s1, s2]
      exact hw

theorem CursorInvNoSync_set_time_anim (c : Clock) (w : Watch) (h : CursorInvNoSync w) :
    CursorInvNoSync (set_time_anim c w) := by
  obtain ⟨h0, hpv, hss, hff⟩ := h
  obtain ⟨d, -, htimer, -⟩ := set_time_anim_arms c w
  have hfr : 0 ≤ w.state ∧ w.state ≤ 23 → (set_time_anim c w).firstRun = w.firstRun := by
    intro hr
    rw [(set_time_anim_flags c w).2.1, (switch_typing_flags c w hr).2.1]
  unfold CursorInvNoSync
  rw [set_time_anim_state, set_time_anim_prompt_visible, set_time_anim_secondsSync,
    set_time_anim_settings, htimer]
  by_cases hpos : 0 < w.secondsSync
  · obtain ⟨h17, hf, -, ha⟩ := hff hpos
    have hc : w.settings.TypingAnimation = 0 ∧ w.state > 16 ∧ w.secondsSync > 0 :=
      ⟨ha, by omega, hpos⟩
    have h16 : w.state ≠ 16 := by omega
    have hr : 0 ≤ w.state ∧ w.state ≤ 22 := by omega
    rw [if_pos hc, if_neg h16, if_pos hc, if_pos hr, hfr (by omega)]
    exact ⟨h0, hpv, by omega, fun _ => ⟨h17, hf, rfl, ha⟩⟩
  · have hc : ¬ (w.settings.TypingAnimation = 0 ∧ w.state > 16 ∧ w.secondsSync > 0) :=
      fun hc => hpos hc.2.2
    have hz : w.secondsSync = 0 := by omega
    rw [if_neg hc, if_neg hc]
    refine ⟨by omega, ?_, ?_, ?_⟩
    · intro hlt
      have hr : 0 ≤ w.state ∧ w.state ≤ 22 := by omega
      rw [if_pos hr]
      exact hpv (by omega)
    · split_ifs <;> omega
    · intro hp
      by_cases h16 : w.state = 16
      · rw [if_pos h16] at hp
        by_cases hcond : w.firstRun = true ∧ w.secondsSync = 0 ∧ w.settings.TypingAnimation = 0
        · rw [hfr (by omega)]
          exact ⟨by omega, hcond.1, rfl, hcond.2.2⟩
        · rw [if_neg hcond] at hp
          omega
      · rw [if_neg h16] at hp
        omega

theorem CursorInvNoSync_tick_handler (c : Clock) (w : Watch) (h : CursorInvNoSync w) :
    CursorInvNoSync (tick_handler c w) := by
  obtain ⟨h0, hpv, hss, hff⟩ := h
  obtain ⟨-, htimer, -⟩ := tick_handler_arms c w
  obtain ⟨f1, f2, f3, -⟩ := tick_handler_frame c w
  unfold CursorInvNoSync
  rw [tick_handler_state, tick_handler_prompt_visible, f1, f2, f3, htimer]
  by_cases hearly : w.timer.isSome = true ∧ w.firstRun = true ∧ w.state < 26
  · rw [if_pos hearly, if_pos hearly]
    refine ⟨h0, hpv, hss, fun hp => ?_⟩
    obtain ⟨h17, hf, -, ha⟩ := hff hp
    exact ⟨h17, hf, rfl, ha⟩
  · have hz : ¬ 0 < w.secondsSync := by
      intro hp
      obtain ⟨h17, hf, ht, -⟩ := hff hp
      exact hearly ⟨ht, hf, by omega⟩
    rw [if_neg hearly, if_neg hearly]
    refine ⟨?_, ?_, hss, fun hp => absurd hp hz⟩
    · split_ifs <;> omega
    · intro hlt
      split_ifs at hlt ⊢
      all_goals first
        | rfl
        | omega
        | exact hpv hlt

theorem sync_frame_timer (key : Nat) (v : Tuple) (w : Watch) :
    (sync_tuple_changed_callback key v w).secondsSync = w.secondsSync
      ∧ (sync_tuple_changed_callback key v w).firstRun = w.firstRun := by
  unfold sync_tuple_changed_callback
  split_ifs <;> exact ⟨rfl, rfl⟩

theorem exec_CursorInvNoSync (evs : List Event) :
    ∀ w w', evs.any Event.isSync = false → CursorInvNoSync w → exec evs w = some w' →
      CursorInvNoSync w' := by
  induction evs with
  | nil =>
    intro w w' _ hw h
    simp only [exec, Option.some.injEq] at h
    exact h ▸ hw
  | cons e es ih =>
    intro w w' hns hw h
    simp only [exec] at h
    cases e with
    | tick c =>
      have hes : es.any Event.isSync = false := by simpa [Event.isSync] using hns
      exact ih (tick_handler c w) w' hes (CursorInvNoSync_tick_handler c w hw)
        (by simpa [step] using h)
    | fire hd c =>
      have hes : es.any Event.isSync = false := by simpa [Event.isSync] using hns
      simp only [step, fire] at h
      split_ifs at h
      · exact ih _ w' hes (CursorInvNoSync_set_time_anim c (app_timer_cancel hd w) hw)
          (by simpa using h)
      · simp at h
    | sync key v => simp [Event.isSync] at hns

theorem boot_CursorInv (stored : Option persist) :
    CursorInv (boot stored) ∧ CursorInvNoSync (boot stored) := by
  refine ⟨⟨Int.le_refl 0, fun _ => rfl⟩, Int.le_refl 0, fun _ => rfl, Int.le_refl 0,
    fun h => ?_⟩
  exact absurd h (Int.lt_irrefl 0)

theorem CursorInvNoSync_sync (key : Nat) (v : Tuple) (w : Watch) (h : CursorInvNoSync w)
    (hb : w.secondsSync ≤ 0
      ∨ (sync_tuple_changed_callback key v w).settings.TypingAnimation = 0) :
    CursorInvNoSync (sync_tuple_changed_callback key v w) := by
  obtain ⟨h0, hpv, hss, hff⟩ := h
  obtain ⟨s1, s2⟩ := sync_frame key v w
  obtain ⟨s3, s4⟩ := sync_frame_timer key v w
  obtain ⟨-, s5⟩ := sync_timers key v w
  unfold CursorInvNoSync
  rw [s1, s2, s3, s4, s5]
  refine ⟨h0, hpv, hss, fun hp => ?_⟩
  obtain ⟨h17, hf, ht, -⟩ := hff hp
  rcases hb with hb | hb
  · omega
  · exact ⟨h17, hf, ht, hb⟩

theorem exec_CursorInv_benign (evs : List Event) :
    ∀ w w', syncs_benign evs w = true → CursorInvNoSync w → exec evs w = some w' →
      CursorInvNoSync w' := by
  induction evs with
  | nil =>
    intro w w' _ hw h
    simp only [exec, Option.some.injEq] at h
    exact h ▸ hw
  | cons e es ih =>
    intro w w' hb hw h
    simp only [exec] at h
    cases e with
    | tick c =>
      have hstep : step (Event.tick c) w = some (tick_handler c w) := rfl
      have hes : syncs_benign es (tick_handler c w) = true := by
        simpa [syncs_benign, hstep] using hb
      exact ih (tick_handler c w) w' hes (CursorInvNoSync_tick_handler c w hw)
        (by simpa [step] using h)
    | fire hd c =>
      cases hf : fire hd c w with
      | none => simp [step, hf] at h
      | some w1 =>
        have hstep : step (Event.fire hd c) w = some w1 := hf
        have hw1 : w1 = set_time_anim c (app_timer_cancel hd w) := by
          unfold fire at hf
          split_ifs at hf
          exact (Option.some.inj hf).symm
        have hes : syncs_benign es w1 = true := by
          simpa [syncs_benign, hstep] using hb
        refine ih w1 w' hes ?_ (by simpa [step, hf] using h)
        rw [hw1]
        exact CursorInvNoSync_set_time_anim c (app_timer_cancel hd w) hw
    | sync key v =>
      have hstep : step (Event.sync key v) w = some (sync_tuple_changed_callback key v w) := rfl
      have hb' : (w.secondsSync ≤ 0
          ∨ (sync_tuple_changed_callback key v w).settings.TypingAnimation = 0)
          ∧ syncs_benign es (sync_tuple_changed_callback key v w) = true := by
        simpa [syncs_benign, hstep] using hb
      exact ih (sync_tuple_changed_callback key v w) w' hb'.2
        (CursorInvNoSync_sync key v w hw hb'.1) (by simpa [step] using h)

theorem syncs_benign_of_no_sync (evs : List Event) :
    ∀ w, evs.any Event.isSync = false → syncs_benign evs w = true := by
  induction evs with
  | nil => intro w _; rfl
  | cons e es ih =>
    intro w h
    cases e with
    | sync key v => simp [Event.isSync] at h
    | tick c =>
      have hes : es.any Event.isSync = false := by simpa [Event.isSync] using h
      have hstep : step (Event.tick c) w = some (tick_handler c w) := rfl
      simp [syncs_benign, hstep, ih _ hes]
    | fire hd c =>
      have hes : es.any Event.isSync = false := by simpa [Event.isSync] using h
      cases hf : step (Event.fire hd c) w with
      | none => simp [syncs_benign, hf]
      | some w1 => simp [syncs_benign, hf, ih _ hes]

/-- Claim C9, amended: in every state reached from boot by any sequence of
minute ticks, timer firings and settings updates, progress below 23 implies that
the cursor flag `prompt_visible` is false; and progress below 24 implies that it
is false in every state reached by a run in which each settings update either
arrives while the fast-forward count `secondsSync` is not positive or leaves the
typing animation disabled, which includes every run without a settings update. -/
theorem C9_cursor_flag_below_terminal (stored : Option persist) (evs : List Event) (w : Watch)
    (h : exec evs (boot stored) = some w) :
    (w.state < 23 → w.prompt_visible = false)
      ∧ (syncs_benign evs (boot stored) = true → w.state < 24 → w.prompt_visible = false)
      ∧ (evs.any Event.isSync = false → syncs_benign evs (boot stored) = true) :=
  ⟨(exec_CursorInv evs _ w (boot_CursorInv stored).1 h).2,
    fun hb => (exec_CursorInv_benign evs _ w hb (boot_CursorInv stored).2 h).2.1,
    fun hns => syncs_benign_of_no_sync evs _ hns⟩

/-- Instance of C9: the run `benign_sync_events`, with a settings update before
the first tick and a timezone update during the fast-forward hold, ends at
progress 17 with the cursor flag clear. -/
theorem C9_cursor_flag_below_terminal_witness :
    exec benign_sync_events (boot none)
        = some { typing_held with
            settings := { BluetoothVibe := 1, TypingAnimation := 0, TimezoneOffset := 60 } }
      ∧ syncs_benign benign_sync_events (boot none) = true
      ∧ typing_held.state < 24 ∧ typing_held.prompt_visible = false :=
  ⟨by decide, by decide, by decide,
    (C9_cursor_flag_below_terminal none benign_sync_events
      { typing_held with
        settings := { BluetoothVibe := 1, TypingAnimation := 0, TimezoneOffset := 60 } }
      (by decide)).2.1 (by decide) (by decide)⟩

/-- Claim C9 as stated fails: the run `held_at_cursor_events` ends at progress 23
(below 24) with the cursor flag set, because the step at 23 sets the flag and the
fast-forward then returns before `state++`. -/
theorem C9_counterexample :
    (exec held_at_cursor_events (boot (some animation_off))).map
        (fun w => (w.state, w.prompt_visible, w.secondsSync)) = some (23, true, 9) := by
  decide

/-! ## The step at progress 23 -/

theorem before_cursor_reached :
    exec (tick_then_fires 23) (boot none) = some before_cursor := by
  decide

/-- The step at progress 23 attaches the epoch value layer and sets the cursor
flag, and leaves the attachment of the inverter layer as it was. -/
theorem set_time_anim_at_23 (c : Clock) (w : Watch) (h : w.state = 23) :
    (set_time_anim c w).prompt_visible = true
      ∧ Layer.text .time_layer ∈ (set_time_anim c w).children
      ∧ (Layer.prompt_layer ∈ (set_time_anim c w).children ↔ Layer.prompt_layer ∈ w.children)
      ∧ (set_time_anim c w).prompt_label = "pebble>" := by
  have hn : ¬ (0 ≤ w.state ∧ w.state ≤ 22) := by omega
  refine ⟨by rw [set_time_anim_prompt_visible, if_neg hn, if_pos h], ?_⟩
  unfold set_time_anim
  rw [switch_at c w _ h]
  simp only [set_time_anim_switch, disabled_redraw, arm, app_timer_register, set_time,
    text_layer_set_text, layer_add_child, layer_remove_from_parent, text_layer_get_layer]
  split_ifs <;> simp_all

/-- Claim C10, the code at the failing input: in `before_cursor` (progress 23,
reached in the first run with default settings) the timer fires; afterwards the
epoch value layer `time_layer` is attached and `prompt_visible` is true, but the
inverter layer `prompt_layer` is not attached to the window. -/
theorem C10_cursor_flag_set_without_inverter :
    exec (tick_then_fires 23) (boot none) = some before_cursor
      ∧ before_cursor.state = 23
      ∧ (fire 23 clock0 before_cursor).map
          (fun w => (w.prompt_visible, decide (Layer.text .time_layer ∈ w.children),
            decide (Layer.prompt_layer ∈ w.children))) = some (true, true, false) := by
  decide

/-! ## The start of the fast-forward -/

set_option maxRecDepth 100000 in
theorem settle_with_skip_left_reached :
    exec skip_left_events (boot (some animation_off)) = some settle_with_skip_left := by
  decide

/-- Claim C11, amended: at progress 16 in a first run with the typing animation
disabled, one step of `set_time_anim` sets `secondsSync` to 10 and arms the fast
delay `TYPE_DELTA` (200 ms) when `secondsSync` is 0; when `secondsSync` is not 0
the step leaves it unchanged and arms `10 * TYPE_DELTA` (2000 ms). In both cases
progress becomes 17. -/
theorem C11_fast_forward_start (c : Clock) (w : Watch)
    (h16 : w.state = 16) (hfr : w.firstRun = true) (han : w.settings.TypingAnimation = 0) :
    (w.secondsSync = 0 →
        (set_time_anim c w).secondsSync = 10
          ∧ armed_delay (set_time_anim c w) = some TYPE_DELTA)
    ∧ (w.secondsSync ≠ 0 →
        (set_time_anim c w).secondsSync = w.secondsSync
          ∧ armed_delay (set_time_anim c w) = some (10 * TYPE_DELTA))
    ∧ (set_time_anim c w).state = 17
    ∧ TYPE_DELTA = 200 := by
  have h8 : w.state ≠ 8 := by omega
  have hst : ¬ (w.settings.TypingAnimation = 0 ∧ w.state > 16 ∧ w.secondsSync > 0) := by omega
  rw [set_time_anim_secondsSync, armed_delay_set_time_anim, set_time_anim_state, step_delay,
    if_pos h16, if_neg h8, if_pos h16, if_neg hst, h16]
  refine ⟨fun hz => ?_, fun hz => ?_, rfl, rfl⟩
  · rw [if_pos ⟨hfr, hz, han⟩, if_pos ⟨hfr, hz, han⟩]
    exact ⟨rfl, rfl⟩
  · rw [if_neg (fun hc => hz hc.2.1), if_neg (fun hc => hz hc.2.1)]
    exact ⟨rfl, rfl⟩

/-- Instance of C11: the first run with the animation off at progress 16 with
`secondsSync` 0 (the first minute tick and 16 firings; timer 16 has fired). -/
theorem C11_fast_forward_start_witness :
    (app_timer_cancel 16 (reached (some animation_off) (tick_then_fires 16))).state = 16
      ∧ (app_timer_cancel 16 (reached (some animation_off) (tick_then_fires 16))).firstRun = true
      ∧ (app_timer_cancel 16
          (reached (some animation_off) (tick_then_fires 16))).settings.TypingAnimation = 0
      ∧ (app_timer_cancel 16 (reached (some animation_off) (tick_then_fires 16))).secondsSync = 0
      ∧ (set_time_anim clock0
          (app_timer_cancel 16 (reached (some animation_off) (tick_then_fires 16)))).secondsSync = 10
      ∧ armed_delay (set_time_anim clock0
          (app_timer_cancel 16 (reached (some animation_off) (tick_then_fires 16))))
          = some TYPE_DELTA :=
  ⟨by decide, by decide, by decide, by decide,
    (C11_fast_forward_start clock0
      (app_timer_cancel 16 (reached (some animation_off) (tick_then_fires 16)))
      (by decide) (by decide) (by decide)).1 (by decide)⟩

/-- Claim C11 as stated fails: `settle_with_skip_left` is at progress 16 in a
first run with the animation disabled, with `secondsSync` 9; when its timer fires
`secondsSync` stays 9 (it is not set to 10) and the delay armed is 2000 ms, not
`TYPE_DELTA`. -/
theorem C11_counterexample :
    exec skip_left_events (boot (some animation_off)) = some settle_with_skip_left
      ∧ settle_with_skip_left.state = 16 ∧ settle_with_skip_left.firstRun = true
      ∧ settle_with_skip_left.settings.TypingAnimation = 0
      ∧ (fire 44 clock0 settle_with_skip_left).map
          (fun w => (w.secondsSync, armed_delay w)) = some (9, some 2000)
      ∧ TYPE_DELTA = 200 :=
  ⟨settle_with_skip_left_reached, by decide⟩

/-! ## The end of the first run -/

theorem default_firstRun (w : Watch) :
    (w.firstRun = true → w.initTime + 1 > INITTIME_PROMPT_LIMIT →
        (set_time_anim_default w).firstRun = false ∧ (set_time_anim_default w).initTime = 0)
    ∧ (w.firstRun = true → ¬ (w.initTime + 1 > INITTIME_PROMPT_LIMIT) →
        (set_time_anim_default w).firstRun = true
          ∧ (set_time_anim_default w).initTime = w.initTime + 1)
    ∧ (w.firstRun = false →
        (set_time_anim_default w).firstRun = false
          ∧ (set_time_anim_default w).initTime = w.initTime) := by
  unfold set_time_anim_default
  cases hpv : w.prompt_visible <;> cases hf : w.firstRun <;>
    simp only [hpv, hf, Bool.false_eq_true, if_false, if_true, layer_add_child,
      layer_remove_from_parent, arm, app_timer_register] <;>
    refine ⟨fun h1 h2 => ?_, fun h1 h2 => ?_, fun h1 => ?_⟩ <;>
    first
      | exact absurd h1 (by decide)
      | (rw [if_pos h2]; exact ⟨rfl, rfl⟩)
      | (rw [if_neg h2]; exact ⟨rfl, rfl⟩)
      | exact ⟨rfl, rfl⟩
      | trivial

/-- The first-run flag and its counter after one step: untouched by the cases 0
to 23; in the `default` case of a first run the counter goes up by one and, once
it exceeds `INITTIME_PROMPT_LIMIT`, the flag is cleared and the counter reset. -/
theorem set_time_anim_firstRun (c : Clock) (w : Watch) (h0 : 0 ≤ w.state) :
    (w.state ≤ 23 →
        (set_time_anim c w).firstRun = w.firstRun ∧ (set_time_anim c w).initTime = w.initTime)
    ∧ (24 ≤ w.state → w.firstRun = true → w.initTime + 1 > 10 →
        (set_time_anim c w).firstRun = false ∧ (set_time_anim c w).initTime = 0)
    ∧ (24 ≤ w.state → w.firstRun = true → ¬ (w.initTime + 1 > 10) →
        (set_time_anim c w).firstRun = true ∧ (set_time_anim c w).initTime = w.initTime + 1)
    ∧ (w.firstRun = false → (set_time_anim c w).firstRun = false) := by
  obtain ⟨-, f2, f3⟩ := set_time_anim_flags c w
  rw [f2, f3]
  have hd := default_firstRun w
  refine ⟨fun h => (switch_typing_flags c w ⟨h0, h⟩).2, fun h hf hi => ?_, fun h hf hi => ?_,
    fun hf => ?_⟩
  · rw [switch_default c w (Or.inr (by omega))]
    exact hd.1 hf hi
  · rw [switch_default c w (Or.inr (by omega))]
    exact hd.2.1 hf hi
  · by_cases h : w.state ≤ 23
    · rw [(switch_typing_flags c w ⟨h0, h⟩).2.1]
      exact hf
    · rw [switch_default c w (Or.inr (by omega))]
      exact (hd.2.2 hf).1

theorem sync_frame_firstRun (key : Nat) (v : Tuple) (w : Watch) :
    (sync_tuple_changed_callback key v w).firstRun = w.firstRun
      ∧ (sync_tuple_changed_callback key v w).initTime = w.initTime := by
  unfold sync_tuple_changed_callback
  split_ifs <;> exact ⟨rfl, rfl⟩

theorem CursorInv_sync (key : Nat) (v : Tuple) (w : Watch) (h : CursorInv w) :
    CursorInv (sync_tuple_changed_callback key v w) := by
  obtain ⟨s1, s2⟩ := sync_frame key v w
  unfold CursorInv
  rw [s1, s2]
  exact h

/-- Along a run the first-run flag stays set while the counter plus the idle
steps run so far is at most 10, is cleared beyond that, and is never set again. -/
theorem exec_firstRun (evs : List Event) :
    ∀ w w', CursorInv w → (w.firstRun = true → w.initTime ≤ 10) → exec evs w = some w' →
      (w.firstRun = true →
        (w.initTime + (idle_advances evs w : Int) ≤ 10 →
            w'.firstRun = true ∧ w'.initTime = w.initTime + (idle_advances evs w : Int))
        ∧ (10 < w.initTime + (idle_advances evs w : Int) → w'.firstRun = false))
      ∧ (w.firstRun = false → w'.firstRun = false) := by
  induction evs with
  | nil =>
    intro w w' _ hl h
    simp only [exec, Option.some.injEq] at h
    subst h
    refine ⟨fun hf => ?_, fun hf => hf⟩
    have := hl hf
    refine ⟨fun _ => ⟨hf, ?_⟩, fun hgt => ?_⟩
    · simp only [idle_advances, Nat.cast_zero, add_zero]
    · simp only [idle_advances, Nat.cast_zero, add_zero] at hgt
      omega
  | cons e es ih =>
    intro w w' hw hl h
    simp only [exec] at h
    cases e with
    | tick c =>
      have hstep : step (Event.tick c) w = some (tick_handler c w) := rfl
      obtain ⟨-, f2, -, f4⟩ := tick_handler_frame c w
      have := ih (tick_handler c w) w' (CursorInv_tick_handler c w hw)
        (by rw [f2, f4]; exact hl) (by simpa [step] using h)
      rw [f2, f4] at this
      simpa [idle_advances, hstep] using this
    | sync key v =>
      have hstep : step (Event.sync key v) w = some (sync_tuple_changed_callback key v w) := rfl
      obtain ⟨f2, f4⟩ := sync_frame_firstRun key v w
      have := ih (sync_tuple_changed_callback key v w) w' (CursorInv_sync key v w hw)
        (by rw [f2, f4]; exact hl) (by simpa [step] using h)
      rw [f2, f4] at this
      simpa [idle_advances, hstep] using this
    | fire hd c =>
      cases hf : fire hd c w with
      | none => simp [step, hf] at h
      | some w1 =>
        have hstep : step (Event.fire hd c) w = some w1 := hf
        have hw1 : w1 = set_time_anim c (app_timer_cancel hd w) := by
          unfold fire at hf
          split_ifs at hf
          exact (Option.some.inj hf).symm
        have hinv : CursorInv w1 := by
          rw [hw1]
          exact CursorInv_set_time_anim c (app_timer_cancel hd w) hw
        obtain ⟨g1, g2, g3, g4⟩ := set_time_anim_firstRun c (app_timer_cancel hd w) hw.1
        rw [← hw1] at g1 g2 g3 g4
        have hs : (app_timer_cancel hd w).state = w.state := rfl
        have hfr : (app_timer_cancel hd w).firstRun = w.firstRun := rfl
        have hit : (app_timer_cancel hd w).initTime = w.initTime := rfl
        rw [hs, hfr, hit] at g1 g2 g3
        rw [hfr] at g4
        have hl1 : w1.firstRun = true → w1.initTime ≤ 10 := by
          intro h1
          have hf1 : w.firstRun = true := by
            cases hwf : w.firstRun
            · rw [g4 hwf] at h1
              exact absurd h1 (by decide)
            · rfl
          by_cases hidle : 24 ≤ w.state
          · by_cases hlim : w.initTime + 1 > 10
            · rw [(g2 hidle hf1 hlim).1] at h1
              exact absurd h1 (by decide)
            · rw [(g3 hidle hf1 hlim).2]
              omega
          · rw [(g1 (by omega)).2]
            exact hl hf1
        have hrec := ih w1 w' hinv hl1 (by simpa [step, hf] using h)
        simp only [idle_advances, hstep]
        refine ⟨fun hf1 => ?_, fun hf0 => hrec.2 (g4 hf0)⟩
        by_cases hidle : 24 ≤ w.state
        · rw [if_pos hidle]
          by_cases hlim : w.initTime + 1 > 10
          · obtain ⟨e1, -⟩ := g2 hidle hf1 hlim
            refine ⟨fun hle => ?_, fun _ => hrec.2 e1⟩
            push_cast at hle
            omega
          · obtain ⟨e1, e2⟩ := g3 hidle hf1 hlim
            have := hrec.1 e1
            rw [e2] at this
            push_cast
            refine ⟨fun hle => ?_, fun hgt => this.2 (by omega)⟩
            obtain ⟨r1, r2⟩ := this.1 (by omega)
            exact ⟨r1, by omega⟩
        · rw [if_neg hidle]
          obtain ⟨e1, e2⟩ := g1 (by omega)
          have := hrec.1 (e1.trans hf1)
          rw [e2] at this
          simpa using this

/-- Claim C12: along every run from boot (any sequence of minute ticks, timer
firings and settings updates, any stored settings) the first-run flag is true as
long as at most 10 idle steps (timer firings at progress 24 or more) have run,
`initTime` counting them across restarts, and it is false once 11 idle steps have
run; and once the flag is false it stays false through every continuation of the
run. -/
theorem C12_first_run_ends_at_eleventh_idle_step (stored : Option persist)
    (evs : List Event) (w : Watch) (h : exec evs (boot stored) = some w) :
    (idle_advances evs (boot stored) ≤ 10 →
        w.firstRun = true ∧ w.initTime = (idle_advances evs (boot stored) : Int))
    ∧ (11 ≤ idle_advances evs (boot stored) → w.firstRun = false)
    ∧ (∀ (evs' : List Event) (w' : Watch),
        w.firstRun = false → exec evs' w = some w' → w'.firstRun = false) := by
  have hb : (boot stored).firstRun = true → (boot stored).initTime ≤ 10 :=
    fun _ => show (0 : Int) ≤ 10 by decide
  have key := (exec_firstRun evs (boot stored) w (boot_CursorInv stored).1 hb h).1 rfl
  have h0 : (boot stored).initTime = 0 := rfl
  rw [h0] at key
  have hinv : CursorInv w := exec_CursorInv evs _ w (boot_CursorInv stored).1 h
  refine ⟨fun hle => ?_, fun hge => key.2 (by omega), fun evs' w' hf he => ?_⟩
  · obtain ⟨r1, r2⟩ := key.1 (by omega)
    exact ⟨r1, by omega⟩
  · have hl : w.firstRun = true → w.initTime ≤ 10 := by
      intro ht
      rw [hf] at ht
      exact absurd ht (by decide)
    exact (exec_firstRun evs' w w' hinv hl he).2 hf

set_option maxRecDepth 100000 in
/-- Instance of C12: the run to `idle_off` has 11 idle steps, and the first-run
flag is false at its end. -/
theorem C12_first_run_ends_at_eleventh_idle_step_witness :
    exec (tick_then_fires 45) (boot (some animation_off)) = some idle_off
      ∧ 11 ≤ idle_advances (tick_then_fires 45) (boot (some animation_off))
      ∧ idle_off.firstRun = false :=
  ⟨idle_off_reached, by decide,
    (C12_first_run_ends_at_eleventh_idle_step (some animation_off) (tick_then_fires 45) idle_off
      idle_off_reached).2.1 (by decide)⟩

/-! ## The fast-forward bridge -/

/-- One firing of the recorded timer, summarised on the counters. -/
theorem advance_step (c : Clock) (w : Watch) (hw : OneTimer w) :
    ∃ w' : Watch, fire_recorded c w = some w' ∧ OneTimer w'
      ∧ w'.settings = w.settings
      ∧ w'.state =
          (if w.settings.TypingAnimation = 0 ∧ w.state > 16 ∧ w.secondsSync > 0 then w.state
           else w.state + 1)
      ∧ w'.secondsSync =
          (if w.state = 16 then
            (if w.firstRun = true ∧ w.secondsSync = 0 ∧ w.settings.TypingAnimation = 0 then 10
             else w.secondsSync)
           else if w.settings.TypingAnimation = 0 ∧ w.state > 16 ∧ w.secondsSync > 0 then
             w.secondsSync - 1
           else w.secondsSync)
      ∧ armed_delay w' = some (step_delay w) := by
  obtain ⟨w0, hf, hs, hset, hfr, hss, -, -, hone⟩ := fire_recorded_OneTimer c w hw
  refine ⟨set_time_anim c w0, hf, hone, ?_, ?_, ?_, ?_⟩
  · rw [set_time_anim_settings, hset]
  · rw [set_time_anim_state, hs, hset, hss]
  · rw [set_time_anim_secondsSync, hs, hset, hss, hfr]
  · rw [armed_delay_set_time_anim]
    unfold step_delay
    rw [hs, hset, hss, hfr]

theorem advance_trace_succ (cs : Nat → Clock) (n : Nat) (w w' : Watch)
    (h : fire_recorded (cs 0) w = some w') :
    advance_trace cs (n + 1) w =
      (w.state, w'.state, w'.secondsSync, armed_delay w')
        :: advance_trace (fun i => cs (i + 1)) n w' := by
  simp only [advance_trace, h]

/-- While the fast-forward count is positive and the animation disabled, each
firing at progress 17 holds progress and takes one unit off the count. -/
theorem hold_run (n : Nat) :
    ∀ (cs : Nat → Clock) (w : Watch) (m : Nat), OneTimer w →
      w.settings.TypingAnimation = 0 → w.state = 17 → w.secondsSync = (n : Int) →
      ∃ w' : Watch, OneTimer w' ∧ w'.settings.TypingAnimation = 0 ∧ w'.state = 17
        ∧ w'.secondsSync = 0
        ∧ advance_trace cs (m + n) w =
            (List.range n).map
              (fun (i : Nat) => ((17 : Int), (17 : Int), (n : Int) - 1 - (i : Int),
                some TYPE_DELTA))
            ++ advance_trace (fun i => cs (i + n)) m w' := by
  induction n with
  | zero =>
    intro cs w m hw ha hs hss
    exact ⟨w, hw, ha, hs, by simpa using hss, rfl⟩
  | succ n ih =>
    intro cs w m hw ha hs hss
    obtain ⟨w1, hf, hone, hset, hst, hsk, hd⟩ := advance_step (cs 0) w hw
    have hc : w.settings.TypingAnimation = 0 ∧ w.state > 16 ∧ w.secondsSync > 0 :=
      ⟨ha, by omega, by omega⟩
    have h16 : w.state ≠ 16 := by omega
    have h8 : w.state ≠ 8 := by omega
    have hr : 0 ≤ w.state ∧ w.state ≤ 22 := by omega
    rw [if_pos hc, hs] at hst
    rw [if_neg h16, if_pos hc, hss] at hsk
    rw [step_delay, if_neg h8, if_neg h16, if_pos hr] at hd
    have ha1 : w1.settings.TypingAnimation = 0 := by rw [hset]; exact ha
    have hsk1 : w1.secondsSync = (n : Int) := by rw [hsk]; push_cast; omega
    obtain ⟨w', hone', ha', hs', hss', ht⟩ := ih (fun i => cs (i + 1)) w1 m hone ha1 hst hsk1
    refine ⟨w', hone', ha', hs', hss', ?_⟩
    show advance_trace cs (m + n + 1) w = _
    rw [advance_trace_succ cs (m + n) w w1 hf, ht, hs, hst, hsk1, hd, List.range_succ_eq_map, List.map_cons, List.map_map,
      List.cons_append]
    congr 1
    · simp
    · congr 1
      apply List.map_congr_left
      intro i _
      simp only [Function.comp, Nat.succ_eq_add_one, Nat.cast_add, Nat.cast_one, Prod.mk.injEq,
        true_and, and_true]
      omega

/-- With the fast-forward count at 0 and the animation disabled, the firings at
progress 17 to 22 each raise progress by one and arm the fast delay. -/
theorem rise_run (n : Nat) :
    ∀ (cs : Nat → Clock) (w : Watch) (m : Nat) (s : Int), OneTimer w →
      w.settings.TypingAnimation = 0 → w.state = s → 17 ≤ s → s + (n : Int) ≤ 23 →
      w.secondsSync = 0 →
      ∃ w' : Watch, OneTimer w' ∧ w'.settings.TypingAnimation = 0 ∧ w'.state = s + (n : Int)
        ∧ w'.secondsSync = 0
        ∧ advance_trace cs (m + n) w =
            (List.range n).map
              (fun (i : Nat) => (s + (i : Int), s + (i : Int) + 1, (0 : Int), some TYPE_DELTA))
            ++ advance_trace (fun i => cs (i + n)) m w' := by
  induction n with
  | zero =>
    intro cs w m s hw ha hs _ _ hss
    exact ⟨w, hw, ha, by simpa using hs, hss, rfl⟩
  | succ n ih =>
    intro cs w m s hw ha hs h17 h23 hss
    push_cast at h23
    obtain ⟨w1, hf, hone, hset, hst, hsk, hd⟩ := advance_step (cs 0) w hw
    have hc : ¬ (w.settings.TypingAnimation = 0 ∧ w.state > 16 ∧ w.secondsSync > 0) := by
      omega
    have h16 : w.state ≠ 16 := by omega
    have h8 : w.state ≠ 8 := by omega
    have hr : 0 ≤ w.state ∧ w.state ≤ 22 := by omega
    rw [if_neg hc, hs] at hst
    rw [if_neg h16, if_neg hc, hss] at hsk
    rw [step_delay, if_neg h8, if_neg h16, if_pos hr] at hd
    have ha1 : w1.settings.TypingAnimation = 0 := by rw [hset]; exact ha
    obtain ⟨w', hone', ha', hs', hss', ht⟩ :=
      ih (fun i => cs (i + 1)) w1 m (s + 1) hone ha1 hst (by omega) (by omega) hsk
    refine ⟨w', hone', ha', by rw [hs']; push_cast; ring, hss', ?_⟩
    show advance_trace cs (m + n + 1) w = _
    rw [advance_trace_succ cs (m + n) w w1 hf, ht, hs, hst, hsk, hd, List.range_succ_eq_map, List.map_cons, List.map_map,
      List.cons_append]
    congr 1
    · simp
    · congr 1
      apply List.map_congr_left
      intro i _
      simp only [Function.comp, Nat.succ_eq_add_one, Nat.cast_add, Nat.cast_one, Prod.mk.injEq,
        and_true]
      constructor <;> ring

/-- Claim C13: in a first run with the typing animation disabled, from progress
16 with `secondsSync` 0 and the recorded timer armed, 18 consecutive timer
firings (at any clock readings, the settings unchanged) go as follows: the step
at 16 sets `secondsSync` to 10 and moves to 17; each of the next 10 steps holds
progress at 17 and takes one unit off `secondsSync`; with `secondsSync` 0
progress rises by one per step, so that after exactly 18 steps progress is 24 and
`secondsSync` is 0 (after 17 steps progress is still 23); the first 17 steps each
arm the fast delay `TYPE_DELTA` (200 ms), the last one arms `PROMPT_DELTA`. -/
theorem C13_fast_forward_bridge (cs : Nat → Clock) (w : Watch) (hone : OneTimer w)
    (h16 : w.state = 16) (hfr : w.firstRun = true) (han : w.settings.TypingAnimation = 0)
    (hss : w.secondsSync = 0) :
    advance_trace cs 18 w =
        [(16, 17, 10, some TYPE_DELTA),
         (17, 17, 9, some TYPE_DELTA), (17, 17, 8, some TYPE_DELTA),
         (17, 17, 7, some TYPE_DELTA), (17, 17, 6, some TYPE_DELTA),
         (17, 17, 5, some TYPE_DELTA), (17, 17, 4, some TYPE_DELTA),
         (17, 17, 3, some TYPE_DELTA), (17, 17, 2, some TYPE_DELTA),
         (17, 17, 1, some TYPE_DELTA), (17, 17, 0, some TYPE_DELTA),
         (17, 18, 0, some TYPE_DELTA), (18, 19, 0, some TYPE_DELTA),
         (19, 20, 0, some TYPE_DELTA), (20, 21, 0, some TYPE_DELTA),
         (21, 22, 0, some TYPE_DELTA), (22, 23, 0, some TYPE_DELTA),
         (23, 24, 0, some PROMPT_DELTA)]
      ∧ TYPE_DELTA = 200 := by
  refine ⟨?_, rfl⟩
  -- the step at 16 starts the fast-forward
  obtain ⟨w1, hf1, hone1, hset1, hst1, hsk1, hd1⟩ := advance_step (cs 0) w hone
  have hn1 : ¬ (w.settings.TypingAnimation = 0 ∧ w.state > 16 ∧ w.secondsSync > 0) := by omega
  have h8 : w.state ≠ 8 := by omega
  rw [if_neg hn1, h16] at hst1
  rw [if_pos h16, if_pos ⟨hfr, hss, han⟩] at hsk1
  rw [step_delay, if_neg h8, if_pos h16, if_pos ⟨hfr, hss, han⟩] at hd1
  have ha1 : w1.settings.TypingAnimation = 0 := by rw [hset1]; exact han
  -- ten held steps at 17
  obtain ⟨w2, hone2, ha2, hst2, hsk2, ht2⟩ :=
    hold_run 10 (fun i => cs (i + 1)) w1 7 hone1 ha1 (by rw [hst1]; rfl) (by rw [hsk1]; rfl)
  -- six rising steps, 17 to 23
  obtain ⟨w3, hone3, ha3, hst3, hsk3, ht3⟩ :=
    rise_run 6 (fun i => cs (i + 10 + 1)) w2 1 17 hone2 ha2 hst2 (by decide) (by decide) hsk2
  -- the step at 23
  obtain ⟨w4, hf4, -, -, hst4, hsk4, hd4⟩ := advance_step (cs (0 + 6 + 10 + 1)) w3 hone3
  have hs3 : w3.state = 23 := by rw [hst3]; rfl
  have hn4 : ¬ (w3.settings.TypingAnimation = 0 ∧ w3.state > 16 ∧ w3.secondsSync > 0) := by
    omega
  have h16' : w3.state ≠ 16 := by omega
  have h8' : w3.state ≠ 8 := by omega
  have hr' : ¬ (0 ≤ w3.state ∧ w3.state ≤ 22) := by omega
  rw [if_neg hn4, hs3] at hst4
  rw [if_neg h16', if_neg hn4, hsk3] at hsk4
  rw [step_delay, if_neg h8', if_neg h16', if_neg hr'] at hd4
  have hlast : advance_trace (fun i => cs (i + 6 + 10 + 1)) 1 w3
      = [(23, 24, 0, some PROMPT_DELTA)] := by
    simp only [advance_trace, hf4, hs3, hst4, hsk4, hd4]
    rfl
  have e1 : advance_trace cs 18 w = _ := advance_trace_succ cs 17 w w1 hf1
  have e2 : advance_trace (fun i => cs (i + 1)) 17 w1 = _ := ht2
  have e3 : advance_trace (fun i => cs (i + 10 + 1)) 7 w2 = _ := ht3
  rw [e1, e2, e3, hlast, h16, hst1, hsk1, hd1]
  rfl

/-- Instance of C13: the first run with the animation off at progress 16, reached
by the first minute tick and 16 timer firings, with timer 16 armed. -/
theorem C13_fast_forward_bridge_witness :
    OneTimer (reached (some animation_off) (tick_then_fires 16))
      ∧ (reached (some animation_off) (tick_then_fires 16)).state = 16
      ∧ (reached (some animation_off) (tick_then_fires 16)).firstRun = true
      ∧ (reached (some animation_off) (tick_then_fires 16)).settings.TypingAnimation = 0
      ∧ (reached (some animation_off) (tick_then_fires 16)).secondsSync = 0
      ∧ advance_trace (fun _ => clock0) 18 (reached (some animation_off) (tick_then_fires 16)) =
        [(16, 17, 10, some TYPE_DELTA),
         (17, 17, 9, some TYPE_DELTA), (17, 17, 8, some TYPE_DELTA),
         (17, 17, 7, some TYPE_DELTA), (17, 17, 6, some TYPE_DELTA),
         (17, 17, 5, some TYPE_DELTA), (17, 17, 4, some TYPE_DELTA),
         (17, 17, 3, some TYPE_DELTA), (17, 17, 2, some TYPE_DELTA),
         (17, 17, 1, some TYPE_DELTA), (17, 17, 0, some TYPE_DELTA),
         (17, 18, 0, some TYPE_DELTA), (18, 19, 0, some TYPE_DELTA),
         (19, 20, 0, some TYPE_DELTA), (20, 21, 0, some TYPE_DELTA),
         (21, 22, 0, some TYPE_DELTA), (22, 23, 0, some TYPE_DELTA),
         (23, 24, 0, some PROMPT_DELTA)] :=
  ⟨⟨⟨16, 200⟩, by decide, by decide⟩, by decide, by decide, by decide, by decide,
    (C13_fast_forward_bridge (fun _ => clock0) (reached (some animation_off) (tick_then_fires 16))
      ⟨⟨16, 200⟩, by decide, by decide⟩ (by decide) (by decide) (by decide) (by decide)).1⟩

/-! ## Typing steps inside a run -/

theorem exec_append (a b : List Event) :
    ∀ w, exec (a ++ b) w = (exec a w).bind (exec b) := by
  induction a with
  | nil => intro w; rfl
  | cons e es ih =>
    intro w
    simp only [List.cons_append, exec]
    cases step e w with
    | none => rfl
    | some w1 => simpa using ih w1

/-- A list of events has no timer firing, or splits at its last timer firing. -/
theorem last_fire_split (l : List Event) :
    l.any Event.isFire = false
      ∨ ∃ (a : List Event) (hd : Nat) (c : Clock) (b : List Event),
          l = a ++ Event.fire hd c :: b ∧ b.any Event.isFire = false := by
  induction l with
  | nil => exact Or.inl rfl
  | cons e es ih =>
    rcases ih with hno | ⟨a, hd, c, b, hl, hb⟩
    · cases e with
      | fire hd c => exact Or.inr ⟨[], hd, c, es, rfl, hno⟩
      | tick c => exact Or.inl (by simpa [Event.isFire] using hno)
      | sync key v => exact Or.inl (by simpa [Event.isFire] using hno)
    · exact Or.inr ⟨e :: a, hd, c, b, by rw [hl]; rfl, hb⟩

/-- The three typed labels after a minute tick: kept on the early return and in
the disabled-animation branch, reset by the restart. -/
theorem tick_handler_labels (c : Clock) (w : Watch) :
    (tick_handler c w).date_label =
        (if w.timer.isSome = true ∧ w.firstRun = true ∧ w.state < 26 then w.date_label
         else if w.firstRun = false ∧ w.settings.TypingAnimation = 0 then w.date_label
         else "pebble>")
    ∧ (tick_handler c w).hour_label =
        (if w.timer.isSome = true ∧ w.firstRun = true ∧ w.state < 26 then w.hour_label
         else if w.firstRun = false ∧ w.settings.TypingAnimation = 0 then w.hour_label
         else "")
    ∧ (tick_handler c w).time_label =
        (if w.timer.isSome = true ∧ w.firstRun = true ∧ w.state < 26 then w.time_label
         else if w.firstRun = false ∧ w.settings.TypingAnimation = 0 then w.time_label
         else "") := by
  unfold tick_handler
  cases hw : w.timer <;> cases hf : w.firstRun <;>
    simp [arm, app_timer_register, app_timer_cancel, set_time, text_layer_set_text,
      layer_add_child, layer_remove_from_parent, hf] <;>
    split_ifs <;> simp_all

theorem sync_labels (key : Nat) (v : Tuple) (w : Watch) :
    (sync_tuple_changed_callback key v w).date_label = w.date_label
      ∧ (sync_tuple_changed_callback key v w).hour_label = w.hour_label
      ∧ (sync_tuple_changed_callback key v w).time_label = w.time_label := by
  unfold sync_tuple_changed_callback
  split_ifs <;> exact ⟨rfl, rfl, rfl⟩

/-- Minute ticks and settings updates alone leave progress and the typed labels
as they are, unless a tick restarts the run (progress 0) or clamps progress to
25. -/
theorem exec_no_fire (mids : List Event) :
    ∀ w1 w, mids.any Event.isFire = false → exec mids w1 = some w →
      (w.state = w1.state ∧ w.date_label = w1.date_label ∧ w.hour_label = w1.hour_label
          ∧ w.time_label = w1.time_label)
        ∨ w.state = 0 ∨ w.state = 25 := by
  induction mids with
  | nil =>
    intro w1 w _ h
    simp only [exec, Option.some.injEq] at h
    subst h
    exact Or.inl ⟨rfl, rfl, rfl, rfl⟩
  | cons e es ih =>
    intro w1 w hno h
    simp only [exec] at h
    cases e with
    | fire hd c => simp [Event.isFire] at hno
    | sync key v =>
      have hes : es.any Event.isFire = false := by simpa [Event.isFire] using hno
      have hrec := ih (sync_tuple_changed_callback key v w1) w hes (by simpa [step] using h)
      obtain ⟨l1, l2, l3⟩ := sync_labels key v w1
      rw [sync_state, l1, l2, l3] at hrec
      exact hrec
    | tick c =>
      have hes : es.any Event.isFire = false := by simpa [Event.isFire] using hno
      have hrec := ih (tick_handler c w1) w hes (by simpa [step] using h)
      obtain ⟨l1, l2, l3⟩ := tick_handler_labels c w1
      rw [tick_handler_state, l1, l2, l3] at hrec
      split_ifs at hrec with hearly hdis hclamp
      · exact hrec
      · rcases hrec with ⟨r1, -⟩ | r | r
        · exact Or.inr (Or.inr r1)
        · exact Or.inr (Or.inl r)
        · exact Or.inr (Or.inr r)
      · exact hrec
      · rcases hrec with ⟨r1, -⟩ | r | r
        · exact Or.inr (Or.inl r1)
        · exact Or.inr (Or.inl r)
        · exact Or.inr (Or.inr r)

theorem StartInv_tick_handler (c : Clock) (w : Watch) (h : StartInv w) :
    StartInv (tick_handler c w) := by
  obtain ⟨h0, hd⟩ := h
  unfold StartInv
  rw [tick_handler_state, (tick_handler_labels c w).1]
  constructor
  · split_ifs <;> omega
  · intro hz
    left
    by_cases hearly : w.timer.isSome = true ∧ w.firstRun = true ∧ w.state < 26
    · rw [if_pos hearly] at hz ⊢
      rcases hd hz with hl | ⟨-, ht, -⟩
      · exact hl
      · rw [ht] at hearly
        exact absurd hearly.1 (by decide)
    · rw [if_neg hearly] at hz ⊢
      by_cases hdis : w.firstRun = false ∧ w.settings.TypingAnimation = 0
      · rw [if_pos hdis] at hz ⊢
        have hz' : w.state = 0 := by
          split_ifs at hz
          · omega
          · exact hz
        rcases hd hz' with hl | ⟨-, -, hf⟩
        · exact hl
        · rw [hf] at hdis
          exact absurd hdis.1 (by decide)
      · rw [if_neg hdis]

theorem StartInv_set_time_anim (c : Clock) (w : Watch) (h : StartInv w) :
    StartInv (set_time_anim c w) := by
  obtain ⟨h0, -⟩ := h
  unfold StartInv
  rw [set_time_anim_state]
  constructor
  · split_ifs <;> omega
  · intro hz
    split_ifs at hz <;> omega

theorem StartInv_sync (key : Nat) (v : Tuple) (w : Watch) (h : StartInv w) :
    StartInv (sync_tuple_changed_callback key v w) := by
  obtain ⟨s1, s2⟩ := sync_timers key v w
  obtain ⟨-, s4⟩ := sync_frame_timer key v w
  unfold StartInv
  rw [sync_state, (sync_labels key v w).1, s1, s2, s4]
  exact h

theorem exec_StartInv (evs : List Event) :
    ∀ w w', StartInv w → exec evs w = some w' → StartInv w' := by
  induction evs with
  | nil =>
    intro w w' hw h
    simp only [exec, Option.some.injEq] at h
    exact h ▸ hw
  | cons e es ih =>
    intro w w' hw h
    simp only [exec] at h
    cases e with
    | tick c =>
      exact ih (tick_handler c w) w' (StartInv_tick_handler c w hw) (by simpa [step] using h)
    | fire hd c =>
      simp only [step, fire] at h
      split_ifs at h
      · refine ih _ w' (StartInv_set_time_anim c (app_timer_cancel hd w) ?_) (by simpa using h)
        exact ⟨hw.1, fun hz => Or.inl ((hw.2 hz).elim id (fun hb => by simp_all))⟩
      · simp at h
    | sync key v =>
      exact ih (sync_tuple_changed_callback key v w) w' (StartInv_sync key v w hw)
        (by simpa [step] using h)

theorem boot_StartInv (stored : Option persist) : StartInv (boot stored) :=
  ⟨Int.le_refl 0, fun _ => Or.inr ⟨rfl, rfl, rfl⟩⟩

/-- A typing step writes the literal of its case to the label being typed. -/
theorem typing_step_text (c : Clock) (w : Watch)
    (hp : (1 ≤ w.state ∧ w.state ≤ 7) ∨ (9 ≤ w.state ∧ w.state ≤ 15)
      ∨ (17 ≤ w.state ∧ w.state ≤ 22)) :
    text_layer_get_text (typed_label w.state) (set_time_anim c w) = typed_text w.state := by
  have hcases : w.state = 1 ∨ w.state = 2 ∨ w.state = 3 ∨ w.state = 4 ∨ w.state = 5
      ∨ w.state = 6 ∨ w.state = 7 ∨ w.state = 9 ∨ w.state = 10 ∨ w.state = 11
      ∨ w.state = 12 ∨ w.state = 13 ∨ w.state = 14 ∨ w.state = 15 ∨ w.state = 17
      ∨ w.state = 18 ∨ w.state = 19 ∨ w.state = 20 ∨ w.state = 21 ∨ w.state = 22 := by
    omega
  rw [set_time_anim_label_text c w _ (typed_label_cases _)]
  rcases hcases with h | h | h | h | h | h | h | h | h | h | h | h | h | h | h | h | h | h | h | h
  all_goals
    rw [switch_at c w _ h, h]
    rfl

/-- The text that the label typed at progress `p` holds after a step at the case
before it. -/
theorem previous_step_text (c0 : Clock) (w0 : Watch) (p : Int)
    (hp : (1 ≤ p ∧ p ≤ 7) ∨ (9 ≤ p ∧ p ≤ 15) ∨ (17 ≤ p ∧ p ≤ 22))
    (h0 : w0.state = p - 1)
    (h1 : p = 1 → w0.date_label = "pebble>") :
    text_layer_get_text (typed_label p) (set_time_anim c0 w0) = typed_text (p - 1) := by
  have hcases : p = 1 ∨ p = 2 ∨ p = 3 ∨ p = 4 ∨ p = 5 ∨ p = 6 ∨ p = 7 ∨ p = 9 ∨ p = 10
      ∨ p = 11 ∨ p = 12 ∨ p = 13 ∨ p = 14 ∨ p = 15 ∨ p = 17 ∨ p = 18 ∨ p = 19 ∨ p = 20
      ∨ p = 21 ∨ p = 22 := by
    omega
  rw [set_time_anim_label_text c0 w0 _ (typed_label_cases _)]
  rcases hcases with h | h | h | h | h | h | h | h | h | h | h | h | h | h | h | h | h | h | h | h
  · subst h
    rw [switch_at c0 w0 _ h0]
    exact h1 rfl
  all_goals
    subst h
    rw [switch_at c0 w0 _ h0]
    first
      | rfl
      | exact switch_16_time_label c0 _ rfl

/-- Each literal is the literal of the case before it with the characters
`appended_text` appended. -/
theorem typed_text_appends (p : Int)
    (hp : (1 ≤ p ∧ p ≤ 7) ∨ (9 ≤ p ∧ p ≤ 15) ∨ (17 ≤ p ∧ p ≤ 22)) :
    typed_text p = typed_text (p - 1) ++ appended_text p
      ∧ (appended_text p).length = (if p = 5 ∨ p = 13 ∨ p = 19 ∨ p = 20 then 2 else 1)
      ∧ ((p = 1 ∨ p = 9 ∨ p = 17) → typed_text (p - 1) = "pebble>") := by
  have hcases : p = 1 ∨ p = 2 ∨ p = 3 ∨ p = 4 ∨ p = 5 ∨ p = 6 ∨ p = 7 ∨ p = 9 ∨ p = 10
      ∨ p = 11 ∨ p = 12 ∨ p = 13 ∨ p = 14 ∨ p = 15 ∨ p = 17 ∨ p = 18 ∨ p = 19 ∨ p = 20
      ∨ p = 21 ∨ p = 22 := by
    omega
  rcases hcases with h | h | h | h | h | h | h | h | h | h | h | h | h | h | h | h | h | h | h | h
  all_goals
    subst h
    decide

theorem typing_step_final (c : Clock) (w : Watch) :
    (w.state = 7 → (set_time_anim c w).date_label = "pebble>date +%F")
    ∧ (w.state = 15 → (set_time_anim c w).hour_label = "pebble>date +%T")
    ∧ (w.state = 22 → (set_time_anim c w).time_label = "pebble>date +%s") := by
  have e := fun l hl => set_time_anim_label_text c w l hl
  refine ⟨fun h => ?_, fun h => ?_, fun h => ?_⟩
  · have := e .date_label (Or.inl rfl)
    rw [switch_at c w _ h] at this
    exact this
  · have := e .hour_label (Or.inr (Or.inl rfl))
    rw [switch_at c w _ h] at this
    exact this
  · have := e .time_label (Or.inr (Or.inr (Or.inl rfl)))
    rw [switch_at c w _ h] at this
    exact this

theorem fire_eq (hd : Nat) (c : Clock) (w w' : Watch) (h : fire hd c w = some w') :
    w' = set_time_anim c (app_timer_cancel hd w) ∧ w.scheduler ≠ [] := by
  unfold fire at h
  split_ifs at h with hany
  refine ⟨(Option.some.inj h).symm, fun hs => ?_⟩
  rw [hs] at hany
  simp at hany

/-- Claim C6, amended: take any run from boot and a timer firing after it that
runs `set_time_anim` at a progress p in [1,7], [9,15] or [17,22]. The run has a
last timer firing before it (the previous step), only minute ticks and settings
updates follow that firing, and the label being typed (date, hour, time label
respectively) still holds the text it held after the previous step. If the
previous step ran at progress p - 1, the text written is that text with the
characters `appended_text p` appended: exactly one character, except the two
characters ` +` at p = 5, 13, 20 and `te` at p = 19; the text held is then the
bare prompt `pebble>` for p = 1, 9 and 17. Otherwise the previous step ran at
the same progress p, held there by the fast-forward (p is 17 or more, the
animation was disabled and `secondsSync` positive), and the step writes the same
text again, appending nothing. The three sequences end in `pebble>date +%F`,
`pebble>date +%T` and `pebble>date +%s`. -/
theorem C6_typing_appends_to_label (stored : Option persist) (run : List Event)
    (hd : Nat) (c : Clock) (w w' : Watch)
    (hrun : exec run (boot stored) = some w) (hf : fire hd c w = some w')
    (hp : (1 ≤ w.state ∧ w.state ≤ 7) ∨ (9 ≤ w.state ∧ w.state ≤ 15)
      ∨ (17 ≤ w.state ∧ w.state ≤ 22)) :
    (∃ (evs mids : List Event) (hd0 : Nat) (c0 : Clock) (w0 w1 : Watch),
      run = evs ++ Event.fire hd0 c0 :: mids ∧ mids.any Event.isFire = false
      ∧ exec evs (boot stored) = some w0 ∧ fire hd0 c0 w0 = some w1 ∧ exec mids w1 = some w
      ∧ text_layer_get_text (typed_label w.state) w
          = text_layer_get_text (typed_label w.state) w1
      ∧ ((w0.state = w.state - 1
            ∧ text_layer_get_text (typed_label w.state) w'
                = text_layer_get_text (typed_label w.state) w ++ appended_text w.state
            ∧ ((w.state = 1 ∨ w.state = 9 ∨ w.state = 17) →
                text_layer_get_text (typed_label w.state) w = "pebble>"))
          ∨ (w0.state = w.state ∧ 17 ≤ w.state ∧ w0.settings.TypingAnimation = 0
            ∧ 0 < w0.secondsSync
            ∧ text_layer_get_text (typed_label w.state) w'
                = text_layer_get_text (typed_label w.state) w)))
    ∧ text_layer_get_text (typed_label w.state) w' = typed_text w.state
    ∧ (appended_text w.state).length
        = (if w.state = 5 ∨ w.state = 13 ∨ w.state = 19 ∨ w.state = 20 then 2 else 1)
    ∧ (w.state = 7 → w'.date_label = "pebble>date +%F")
    ∧ (w.state = 15 → w'.hour_label = "pebble>date +%T")
    ∧ (w.state = 22 → w'.time_label = "pebble>date +%s") := by
  obtain ⟨hw', -⟩ := fire_eq hd c w w' hf
  have hfin := typing_step_final c (app_timer_cancel hd w)
  have htxt := typing_step_text c (app_timer_cancel hd w) hp
  rw [← hw'] at hfin htxt
  refine ⟨?_, htxt, (typed_text_appends w.state hp).2.1, hfin⟩
  rcases last_fire_split run with hno | ⟨evs, hd0, c0, mids, hsplit, hmids⟩
  · rcases exec_no_fire run _ w hno hrun with ⟨hs, -⟩ | hs | hs
    · have : (boot stored).state = 0 := rfl
      omega
    · omega
    · omega
  · rw [hsplit, exec_append] at hrun
    cases he : exec evs (boot stored) with
    | none => simp [he] at hrun
    | some w0 =>
      rw [he] at hrun
      simp only [Option.some_bind, exec, step] at hrun
      cases hf0 : fire hd0 c0 w0 with
      | none => simp [hf0] at hrun
      | some w1 =>
        rw [hf0] at hrun
        simp only [Option.some_bind] at hrun
        refine ⟨evs, mids, hd0, c0, w0, w1, hsplit, hmids, he, hf0, hrun, ?_⟩
        obtain ⟨hw1, hsched⟩ := fire_eq hd0 c0 w0 w1 hf0
        have hsame : w.state = w1.state ∧ w.date_label = w1.date_label
            ∧ w.hour_label = w1.hour_label ∧ w.time_label = w1.time_label := by
          rcases exec_no_fire mids w1 w hmids hrun with hs | hs | hs
          · exact hs
          · omega
          · omega
        have htext : text_layer_get_text (typed_label w.state) w
            = text_layer_get_text (typed_label w.state) w1 := by
          unfold typed_label
          split_ifs
          · exact hsame.2.1
          · exact hsame.2.2.1
          · exact hsame.2.2.2
        refine ⟨htext, ?_⟩
        have hst1 := set_time_anim_state c0 (app_timer_cancel hd0 w0)
        rw [← hw1] at hst1
        have hc0s : (app_timer_cancel hd0 w0).state = w0.state := rfl
        have hc0a : (app_timer_cancel hd0 w0).settings = w0.settings := rfl
        have hc0k : (app_timer_cancel hd0 w0).secondsSync = w0.secondsSync := rfl
        have hcs : (app_timer_cancel hd w).state = w.state := rfl
        rw [hc0s, hc0a, hc0k] at hst1
        have hinv0 : StartInv w0 := exec_StartInv evs _ w0 (boot_StartInv stored) he
        by_cases hheld : w0.settings.TypingAnimation = 0 ∧ w0.state > 16 ∧ w0.secondsSync > 0
        · rw [if_pos hheld] at hst1
          right
          have hs0 : w0.state = w.state := by omega
          refine ⟨hs0, by omega, hheld.1, hheld.2.2, ?_⟩
          have ta := typing_step_text c (app_timer_cancel hd w) (by rw [hcs]; exact hp)
          have tb := typing_step_text c0 (app_timer_cancel hd0 w0)
            (by rw [hc0s, hs0]; exact hp)
          rw [hcs, ← hw'] at ta
          rw [hc0s, hs0, ← hw1] at tb
          rw [htext, ta, tb]
        · rw [if_neg hheld] at hst1
          left
          have hs0 : w0.state = w.state - 1 := by omega
          have h1 : w.state = 1 → (app_timer_cancel hd0 w0).date_label = "pebble>" := by
            intro hone
            have hz : w0.state = 0 := by omega
            rcases hinv0.2 hz with hl | ⟨hb, -⟩
            · exact hl
            · exact absurd hb hsched
          have ta := typing_step_text c (app_timer_cancel hd w) (by rw [hcs]; exact hp)
          have tb := previous_step_text c0 (app_timer_cancel hd0 w0) w.state hp
            (by rw [hc0s]; exact hs0) h1
          have tc := typed_text_appends w.state hp
          rw [hcs, ← hw'] at ta
          rw [← hw1, ← htext] at tb
          refine ⟨hs0, ?_, fun h => ?_⟩
          · rw [ta, tb]
            exact tc.1
          · rw [tb]
            exact tc.2.2 h

theorem held_once_reached :
    exec (tick_then_fires 18) (boot (some animation_off)) = some held_once := by
  decide

/-- Instance of C6: the run to `held_once` followed by the firing of timer 18.
The previous step ran at progress 17 too (held by the fast-forward), so the step
writes `pebble>d` over `pebble>d`. -/
theorem C6_typing_appends_to_label_witness :
    exec (tick_then_fires 18) (boot (some animation_off)) = some held_once
      ∧ fire 18 clock0 held_once
          = some (set_time_anim clock0 (app_timer_cancel 18 held_once))
      ∧ (17 ≤ held_once.state ∧ held_once.state ≤ 22)
      ∧ text_layer_get_text (typed_label held_once.state)
          (set_time_anim clock0 (app_timer_cancel 18 held_once)) = typed_text held_once.state
      ∧ typed_text held_once.state = "pebble>d"
      ∧ held_once.time_label = "pebble>d" :=
  ⟨held_once_reached, by decide, by decide,
    (C6_typing_appends_to_label (some animation_off) (tick_then_fires 18) 18 clock0 held_once
      (set_time_anim clock0 (app_timer_cancel 18 held_once)) held_once_reached (by decide)
      (Or.inr (Or.inr (by decide)))).2.1,
    by decide, by decide⟩

end PebbleTermWatch
